import Mathlib

/-!
Verification development for the alfera-backend supplier-sync pipeline.

The Python sources (supplier clients, field mappers and the sync
orchestrator) are shallowly embedded below: each Lean definition is a
direct transcription of one Python function, with machine integers as
`Int`/`Nat`, floats as `Rat` (only equality/ordering on small literals is
ever used), `dict.get` as `Option`-valued fields, and raised exceptions as
`Except` errors.  External collaborators (the Django ORM, the filesystem,
HTTP) are represented by explicit state values and parameters.
-/

namespace Alfera

/-! ## Python string and number primitives -/

/-- Whitespace test used by `str.strip()`. -/
def isPySpace (c : Char) : Bool :=
  c = ' ' ∨ c = '\t' ∨ c = '\n' ∨ c = '\r'

/-- Python `str.strip()`: drop leading and trailing whitespace. -/
def pyStrip (s : String) : String :=
  let l := s.toList.dropWhile isPySpace
  String.mk ((l.reverse.dropWhile isPySpace).reverse)

/-- Python `str.strip(chars)` for a single character argument. -/
def pyStripChar (ch : Char) (s : String) : String :=
  let l := s.toList.dropWhile (· = ch)
  String.mk ((l.reverse.dropWhile (· = ch)).reverse)

/-- One left-to-right, non-overlapping replacement pass over a character
list, mirroring Python `str.replace(pat, rep)`.  The `fuel` argument (an
upper bound on the number of consumed characters, instantiated with the
list length) makes the recursion structural; every step consumes at least
one character, so the fuel never runs out on the `fuel = input length`
instantiation used below. -/
def replaceListAux (pat rep : List Char) : Nat → List Char → List Char
  | _, [] => []
  | 0, l => l
  | fuel + 1, c :: rest =>
    if pat ≠ [] ∧ pat.isPrefixOf (c :: rest) then
      rep ++ replaceListAux pat rep fuel ((c :: rest).drop pat.length)
    else
      c :: replaceListAux pat rep fuel rest

def replaceList (pat rep l : List Char) : List Char :=
  replaceListAux pat rep l.length l

/-- Python `str.replace`. -/
def pyReplace (s pat rep : String) : String :=
  String.mk (replaceList pat.toList rep.toList s.toList)

/-- Python string slice `s[:n]`. -/
def pyTake (n : Nat) (s : String) : String :=
  String.mk (s.toList.take n)

/-- Value of a list of decimal digit characters. -/
def natOfDigits (l : List Char) : Nat :=
  l.foldl (fun a c => a * 10 + (c.toNat - 48)) 0

/-- Python `float(s)` restricted to the plain decimal grammar
`[+-]? digits [ . digits? ] | [+-]? . digits` actually exercised by the
feeds (no exponents / inf / nan); `none` models `ValueError`. -/
def pyParseFloat (s : String) : Option Rat :=
  let l := (pyStrip s).toList
  let (neg, l) : Bool × List Char :=
    match l with
    | '+' :: r => (false, r)
    | '-' :: r => (true, r)
    | _ => (false, l)
  let intPart := l.takeWhile (·.isDigit)
  let rest := l.dropWhile (·.isDigit)
  let magnitude : Option Rat :=
    match rest with
    | [] =>
      if intPart = [] then none
      else some ((natOfDigits intPart : Nat) : Rat)
    | '.' :: frac =>
      if frac.all (·.isDigit) ∧ (intPart ≠ [] ∨ frac ≠ []) then
        some (((natOfDigits intPart : Nat) : Rat) +
          ((natOfDigits frac : Nat) : Rat) / ((10 : Rat) ^ frac.length))
      else none
    | _ => none
  magnitude.map (fun v => if neg then -v else v)

/-- Python `int(q)` on a float: truncation toward zero. -/
def ratTruncToInt (q : Rat) : Int :=
  if 0 ≤ q then q.floor else q.ceil

/-- Python truthiness of an optional integer keyword argument
(`None` and `0` are falsy). -/
def pyTruthyNat : Option Nat → Bool
  | none => false
  | some n => n ≠ 0

/-- Python truthiness of an `Optional[int]` value. -/
def truthyOptInt : Option Int → Bool
  | none => false
  | some n => n ≠ 0

/-- Python truthiness of an `Optional[float]` value. -/
def truthyOptRat : Option Rat → Bool
  | none => false
  | some q => q ≠ 0

/-- Python slice `l[:limit] if limit else l`, as used on cached feed data. -/
def pySliceOpt {α : Type} (l : List α) (limit : Option Nat) : List α :=
  if pyTruthyNat limit then l.take (limit.getD 0) else l

/-- Assoc-list lookup mirroring Python `dict` key lookup. -/
def lookupA {α : Type} (key : String) : List (String × α) → Option α
  | [] => none
  | (k, v) :: rest => if k = key then some v else lookupA key rest

/-- Python `dict` assignment: overwriting an existing key keeps the key's
original position, a new key is appended (insertion order). -/
def assocUpdate {α : Type} (key : String) (val : α) :
    List (String × α) → List (String × α)
  | [] => [(key, val)]
  | (k, v) :: rest =>
    if k = key then (k, val) :: rest else (k, v) :: assocUpdate key val rest

/-! ## Shared error taxonomy

`suppliers/clients/base.py` defines `APIError` and its subclasses
`RateLimitError`, `AuthenticationError`, `DataParsingError`; a Python
`TypeError` can also surface from a bad call (see `SyncLog.mark_completed`).
-/

inductive SupplierErr
  | apiError (msg : String)
  | dataParsingError (msg : String)
  | authenticationError (msg : String)
  | rateLimitError (msg : String)
  | typeError (msg : String)
deriving DecidableEq

/-! ## BIC grouped-CSV parser (`suppliers/clients/bic_parser.py`)

A CSV row is a `csv.DictReader` dict.  Cells that the claims exercise are
explicit fields; cells read through `dict.get(key, default)` whose key may
be absent from the header are `Option String` (`none` = key absent), and
the `weight` cell is `Option String` with `none` modelling the Python
`None` a `DictReader` stores for a truncated ("malformed") row — calling
`.replace` on it raises `AttributeError` inside
`_standardize_bic_product_data`'s `try`.  The indexed price columns
`minQty.i` / `maxQty.i` / `price.i` are functions from the index to the
cell text, with `""` for a blank or absent cell (the code reads them via
`data.get(key, '')`). -/

structure BicRow where
  active : String
  productCode : String
  language : String
  name : String
  description : String
  benefits : String
  brand : Option String
  listImage : String
  imprintTemplate : String
  materials : String
  countryOfOrigin : String
  customsCode : String
  width : String
  height : String
  depth : String
  diameter : String
  weight : Option String
  priceCurrency : Option String
  minQty : Nat → String
  maxQty : Nat → String
  price : Nat → String

/-- `BICParser._safe_float` on a string cell (`''` and unparsable → `None`). -/
def bicSafeFloat (value : String) : Option Rat :=
  if value = "" then none
  else
    let cleaned := pyReplace (pyStrip value) "," "."
    if cleaned = "" then none else pyParseFloat cleaned

/-- `BICParser._safe_int` on a string cell. -/
def bicSafeInt (value : String) : Option Int :=
  if value = "" then none
  else
    let cleaned := pyStrip value
    if cleaned = "" then none else (pyParseFloat cleaned).map ratTruncToInt

/-- One normalized price tier as built by `BICParser._extract_prices`. -/
structure BicPriceTier where
  minQuantity : Int
  maxQuantity : Int
  price : Rat
  currency : String
deriving DecidableEq

/-- `BICParser._extract_prices`: fixed columns `price.1 .. price.10`; a tier
is kept only when price and min quantity are truthy; a falsy max quantity
becomes the sentinel `999999`. -/
def bicExtractPrices (data : BicRow) : List BicPriceTier :=
  ((List.range 10).map (· + 1)).filterMap (fun i =>
    let minq := bicSafeInt (data.minQty i)
    let maxq := bicSafeInt (data.maxQty i)
    let price := bicSafeFloat (data.price i)
    if truthyOptRat price ∧ truthyOptInt minq then
      some { minQuantity := minq.getD 0,
             maxQuantity := if truthyOptInt maxq then maxq.getD 0 else 999999,
             price := price.getD 0,
             currency := pyStrip (data.priceCurrency.getD "EUR") }
    else none)

/-- `BICParser._extract_images`. -/
def bicExtractImages (data : BicRow) : List String :=
  let listImage := pyStrip data.listImage
  let images := if listImage ≠ "" then [listImage] else []
  let tmpl := pyStrip data.imprintTemplate
  if tmpl ≠ "" ∧ tmpl ≠ listImage then images ++ [tmpl] else images

/-- `BICParser._extract_categories`: brand (when non-empty) plus the fixed
promotional bucket. -/
def bicExtractCategories (data : BicRow) : List String :=
  let brand := pyStrip (data.brand.getD "")
  (if brand ≠ "" then [brand] else []) ++ ["Prodotti Promozionali"]

/-- Product dimensions dict built by `BICParser._extract_dimensions`
(a key is set only for a truthy parsed value). -/
structure BicDimensions where
  width : Option Rat
  height : Option Rat
  depth : Option Rat
  diameter : Option Rat
deriving DecidableEq

/-- Keep a parsed value only when truthy (Python `if v: d[k] = v`). -/
def keepTruthyRat (v : Option Rat) : Option Rat :=
  if truthyOptRat v then v else none

/-- `BICParser._extract_dimensions`. -/
def bicExtractDimensions (data : BicRow) : BicDimensions :=
  { width := keepTruthyRat (bicSafeFloat (pyReplace data.width " cm" "")),
    height := keepTruthyRat (bicSafeFloat (pyReplace data.height " cm" "")),
    depth := keepTruthyRat (bicSafeFloat (pyReplace data.depth " cm" "")),
    diameter := keepTruthyRat (bicSafeFloat (pyReplace data.diameter " cm" "")) }

/-- Main variant built by `BICParser._create_main_variant`. -/
structure BicVariant where
  supplierVariantRef : String
  sku : String
  color : String
  size : String
  gtin : String
  image : String
  currentStock : Int
  currentPrice : Option Rat
deriving DecidableEq

def bicCreateMainVariant (data : BicRow) : BicVariant :=
  { supplierVariantRef := data.productCode,
    sku := "BIC_" ++ data.productCode,
    color := "", size := "", gtin := "",
    image := pyStrip data.listImage,
    currentStock := 0,
    currentPrice := bicSafeFloat (data.price 1) }

/-- Standardized BIC product (`_standardize_bic_product_data` result; the
`packaging`, `multilang_data` and `raw_data` keys carry no logic touched by
any claim and are elided). -/
structure BicProduct where
  supplierRef : String
  sku : String
  name : String
  description : String
  shortDescription : String
  brand : String
  active : Bool
  images : List String
  categories : List String
  dimensions : BicDimensions
  weight : Option Rat
  materials : String
  countryOfOrigin : String
  customsCode : String
  variants : List BicVariant
  prices : List BicPriceTier
deriving DecidableEq

/-- Language-priority selection from `_standardize_bic_product_data`
lines 78–85: configured preferred locale, else `en`, else the first locale
present (`next(iter(languages.values()))`). -/
def selectMainData (pref : String) (langs : List (String × BicRow)) :
    Option BicRow :=
  match lookupA pref langs with
  | some r => some r
  | none =>
    match lookupA "en" langs with
    | some r => some r
    | none => langs.head?.map Prod.snd

/-- `BICParser._standardize_bic_product_data`: pick the main-language row,
then build the standardized product; any exception (modelled: the `weight`
cell being Python `None` on a truncated row, or an empty group) is caught
and yields `None`. -/
def standardizeBicProduct (pref : String) (productCode : String)
    (langs : List (String × BicRow)) : Option BicProduct :=
  match selectMainData pref langs with
  | none => none
  | some m =>
    match m.weight with
    | none => none
    | some w =>
      some { supplierRef := productCode,
             sku := "BIC_" ++ productCode,
             name := pyStrip m.name,
             description := pyStrip m.description,
             shortDescription := pyTake 500 (pyStrip m.benefits),
             brand := pyStrip (m.brand.getD "BIC"),
             active := m.active = "1",
             images := bicExtractImages m,
             categories := bicExtractCategories m,
             dimensions := bicExtractDimensions m,
             weight := bicSafeFloat (pyReplace w " g" ""),
             materials := pyStrip m.materials,
             countryOfOrigin := pyStrip m.countryOfOrigin,
             customsCode := pyStrip m.customsCode,
             variants := [bicCreateMainVariant m],
             prices := bicExtractPrices m }

/-- The row-grouping loop of `BICParser.get_products`: skip inactive rows
and empty product codes, group by product code into locale → row (Python
dict insertion order), and break once `limit` distinct codes exist. -/
def bicGroupRows (limit : Option Nat) :
    List BicRow → List (String × List (String × BicRow)) :=
  go []
where
  go (acc : List (String × List (String × BicRow))) :
      List BicRow → List (String × List (String × BicRow))
  | [] => acc
  | row :: rest =>
    if row.active ≠ "1" then go acc rest
    else
      let code := pyStrip row.productCode
      let lang := pyStrip row.language
      if code = "" then go acc rest
      else
        let acc2 :=
          match lookupA code acc with
          | some langs => assocUpdate code (assocUpdate lang row langs) acc
          | none => acc ++ [(code, [(lang, row)])]
        if pyTruthyNat limit ∧ limit.getD 0 ≤ acc2.length then acc2
        else go acc2 rest

/-- `BICParser.get_products`.  The filesystem is a parameter: `fileExists`
models `os.path.exists(self.csv_path)` and `rows` the parsed CSV rows.
Note the function never raises — a missing file and any top-level parsing
exception both return `[]` — so every path is `Except.ok`. -/
def bicGetProducts (pref : String) (fileExists : Bool) (rows : List BicRow)
    (limit : Option Nat) : Except SupplierErr (List BicProduct) :=
  if ¬ fileExists then .ok []
  else
    .ok ((bicGroupRows limit rows).filterMap
      (fun g => standardizeBicProduct pref g.fst g.snd))

/-! ## MKTO streaming-XML parser (`suppliers/clients/mkto_parser.py`)

A `<product>` subtree, once `_xml_element_to_dict` has turned it into a
nested dict, is modelled by `MktoRaw`; dict keys read through
`raw.get(key, default)` that may be absent are `Option`-valued.  The
`ET.iterparse` event stream is a list of `MktoFeedEvent`s: `elem` carries
one complete repeating element, `malformed` marks the point where the
underlying XML is not well formed and `iterparse` raises `ET.ParseError`
(wrapped by the code into `DataParsingError`). -/

structure MktoImage where
  imagemax : Option String
deriving DecidableEq

structure MktoRawVariant where
  colour : Option String
  size : Option String
  refct : Option String
  matnr : Option String
  image500px : Option String
deriving DecidableEq

structure MktoRaw where
  ref : Option String
  name : Option String
  typ : Option String
  extendedinfo : Option String
  otherinfo : Option String
  composition : Option String
  brand : Option String
  itemWeight : Option String
  itemLong : Option String
  itemWidth : Option String
  itemHight : Option String
  imagemain : Option String
  images : Option (List MktoImage)
  categoryNames : Option (Nat → Option String)
  variants : Option (List MktoRawVariant)
  printcode : Option String
  keywords : Option String

inductive MktoFeedEvent
  | elem (raw : MktoRaw)
  | malformed

/-- `MKTOParser._safe_float` (note: no default for empty handling beyond
Python truthiness; commas become decimal points). -/
def mktoSafeFloat (value : Option String) : Option Rat :=
  match value with
  | none => none
  | some s => if s = "" then none else pyParseFloat (pyReplace s "," ".")

/-- `MKTOParser._safe_int`. -/
def mktoSafeInt (value : Option String) : Int :=
  match value with
  | none => 0
  | some s =>
    if s = "" then 0
    else match pyParseFloat s with
      | some q => ratTruncToInt q
      | none => 0

/-- Variant record produced by `_standardize_mkto_product`. -/
structure MktoVariant where
  supplierVariantRef : String
  sku : String
  color : String
  size : String
  gtin : String
  image : String
deriving DecidableEq

/-- Variant-SKU synthesis inside `_standardize_mkto_product`: use a
non-blank `refct` verbatim (stripped), otherwise join
`MAK_<ref>` with slash/space-cleaned colour and size parts. -/
def mktoVariantSku (supplierRef : String) (v : MktoRawVariant) : String :=
  let refct := v.refct.getD ""
  if refct ≠ "" ∧ pyStrip refct ≠ "" then pyStrip refct
  else
    let color := v.colour.getD ""
    let size := v.size.getD "ST"
    let parts := ["MAK_" ++ supplierRef]
    let parts := if color ≠ "" then
        parts ++ [pyReplace (pyReplace color "/" "") " " ""] else parts
    let parts := if size ≠ "" ∧ size ≠ "S/T" then
        parts ++ [pyReplace (pyReplace size "/" "") " " ""] else parts
    String.intercalate "_" parts

def mktoStandardizeVariant (supplierRef : String) (v : MktoRawVariant) :
    MktoVariant :=
  let refct := v.refct.getD ""
  let color := v.colour.getD ""
  let size := v.size.getD "ST"
  { supplierVariantRef :=
      if refct ≠ "" then refct
      else supplierRef ++ "_" ++ color ++ "_" ++ size,
    sku := mktoVariantSku supplierRef v,
    color := color, size := size,
    gtin := v.matnr.getD "",
    image := v.image500px.getD "" }

/-- Standardized MKTO product (`raw_data` passthrough elided). -/
structure MktoProduct where
  supplierRef : String
  name : String
  typ : String
  description : String
  shortDescription : String
  composition : String
  brand : String
  weight : Option Rat
  mainImage : String
  images : List String
  categories : List String
  variants : List MktoVariant
  isPrintable : Bool
  printCode : String
  keywords : String
  dimensions : String
deriving DecidableEq

/-- `MKTOParser._format_dimensions`. -/
def mktoFormatDimensions (raw : MktoRaw) : String :=
  let dims := (if (raw.itemLong.getD "") ≠ "" then [raw.itemLong.getD ""] else [])
    ++ (if (raw.itemWidth.getD "") ≠ "" then [raw.itemWidth.getD ""] else [])
    ++ (if (raw.itemHight.getD "") ≠ "" then [raw.itemHight.getD ""] else [])
  if dims ≠ [] then String.intercalate " x " dims ++ " cm" else ""

/-- Image extraction in `_standardize_mkto_product`: `imagemain` first,
then each `images/image/imagemax` not already present. -/
def mktoExtractImages (raw : MktoRaw) : List String :=
  let images :=
    match raw.imagemain with
    | some s => if s ≠ "" then [s] else []
    | none => []
  match raw.images with
  | none => images
  | some imgList =>
    imgList.foldl (fun acc img =>
      match img.imagemax with
      | some m => if m ≠ "" ∧ ¬ acc.contains m then acc ++ [m] else acc
      | none => acc) images

/-- Category extraction in `_standardize_mkto_product`:
`category_name_1 .. category_name_5`, truthy names only. -/
def mktoExtractCategories (raw : MktoRaw) : List String :=
  match raw.categoryNames with
  | none => []
  | some catName =>
    ((List.range 5).map (· + 1)).filterMap (fun i =>
      match catName i with
      | some n => if n ≠ "" then some n else none
      | none => none)

/-- `MKTOParser._standardize_mkto_product`. -/
def standardizeMktoProduct (raw : MktoRaw) : MktoProduct :=
  let images := mktoExtractImages raw
  let supplierRef := raw.ref.getD ""
  { supplierRef := supplierRef,
    name := raw.name.getD "",
    typ := raw.typ.getD "",
    description := raw.extendedinfo.getD "",
    shortDescription := raw.otherinfo.getD "",
    composition := raw.composition.getD "",
    brand := raw.brand.getD "",
    weight := mktoSafeFloat raw.itemWeight,
    mainImage := images.headD "",
    images := images,
    categories := mktoExtractCategories raw,
    variants := (raw.variants.getD []).map (mktoStandardizeVariant supplierRef),
    isPrintable := (raw.printcode.getD "") ≠ "",
    printCode := raw.printcode.getD "",
    keywords := raw.keywords.getD "",
    dimensions := mktoFormatDimensions raw }

/-- The record loop of `MKTOParser.get_products` over the iterparse event
stream: standardize and collect each product element, break once `limit`
records were taken; reaching a malformed region raises
`DataParsingError`. -/
def mktoParseProducts (limit : Option Nat) :
    Nat → List MktoProduct → List MktoFeedEvent →
    Except SupplierErr (List MktoProduct)
  | _, acc, [] => .ok acc.reverse
  | _, _, .malformed :: _ =>
    .error (.dataParsingError "Errore parsing XML")
  | count, acc, .elem raw :: rest =>
    let acc2 := standardizeMktoProduct raw :: acc
    let count2 := count + 1
    if pyTruthyNat limit ∧ limit.getD 0 ≤ count2 then .ok acc2.reverse
    else mktoParseProducts limit count2 acc2 rest

/-- `MKTOParser.get_products`: serve a truthy cache entry (sliced by
`limit`) unless `force_refresh`; otherwise parse the file; a missing file
or any parse error is re-raised as `APIError`. -/
def mktoGetProducts (cache : Option (List MktoProduct)) (forceRefresh : Bool)
    (limit : Option Nat) (fileExists : Bool) (events : List MktoFeedEvent) :
    Except SupplierErr (List MktoProduct) :=
  let cacheHit : Option (List MktoProduct) :=
    if ¬ forceRefresh then
      match cache with
      | some cached => if cached ≠ [] then some cached else none
      | none => none
    else none
  match cacheHit with
  | some cached => .ok (pySliceOpt cached limit)
  | none =>
    if ¬ fileExists then
      .error (.apiError "Errore recupero prodotti: File XML non trovato")
    else
      match mktoParseProducts limit 0 [] events with
      | .ok products => .ok products
      | .error _ => .error (.apiError "Errore recupero prodotti")

/-! ## Makito XML parser (`suppliers/clients/makito_parser.py`)

`get_products(self, **kwargs)` has no `limit` parameter: a `limit` keyword
lands in `**kwargs` and is never read, which the embedding records as an
explicitly unused `kwargsLimit` argument.  File-level failures (missing
file, zero-byte file, root element other than `catalog`) all surface as a
raised `APIError`; they are collapsed into `file = none`. -/

structure MakitoRawVariant where
  matnr : Option String
  refct : Option String
  colour : Option String
  colourname : Option String
  size : Option String
  image500px : Option String
deriving DecidableEq

structure MakitoRaw where
  ref : Option String
  name : Option String
  typ : Option String
  extendedinfo : Option String
  otherinfo : Option String
  composition : Option String
  brand : Option String
  itemLong : Option String
  itemWidth : Option String
  itemHight : Option String
  itemWeight : Option String
  imagemain : Option String
  images : Option (List MktoImage)
  categoryRefs : Option (Nat → Option String)
  categoryNames : Option (Nat → Option String)
  variants : Option (List MakitoRawVariant)
  printcode : Option String
  keywords : Option String

structure MakitoVariant where
  matnr : String
  refct : String
  colour : String
  colourName : String
  size : String
  image : String
deriving DecidableEq

structure MakitoCategory where
  ref : String
  name : String
deriving DecidableEq

structure MakitoProduct where
  supplierRef : String
  name : String
  typ : String
  description : String
  shortDescription : String
  composition : String
  brand : String
  dimensions : String
  weight : String
  mainImage : String
  images : List String
  categories : List MakitoCategory
  variants : List MakitoVariant
  printCode : String
  keywords : String
deriving DecidableEq

/-- `MakitoParser._extract_images` (same shape as the MKTO variant). -/
def makitoExtractImages (raw : MakitoRaw) : List String :=
  let images :=
    match raw.imagemain with
    | some s => if s ≠ "" then [s] else []
    | none => []
  match raw.images with
  | none => images
  | some imgList =>
    imgList.foldl (fun acc img =>
      match img.imagemax with
      | some m => if m ≠ "" ∧ ¬ acc.contains m then acc ++ [m] else acc
      | none => acc) images

/-- `MakitoParser._extract_categories`: keeps `(ref, name)` pairs where
both `category_ref_i` and `category_name_i` are truthy. -/
def makitoExtractCategories (raw : MakitoRaw) : List MakitoCategory :=
  match raw.categoryRefs, raw.categoryNames with
  | some catRef, some catName =>
    ((List.range 5).map (· + 1)).filterMap (fun i =>
      match catRef i, catName i with
      | some r, some n =>
        if r ≠ "" ∧ n ≠ "" then some { ref := r, name := n } else none
      | _, _ => none)
  | _, _ => []

/-- `MakitoParser._extract_variants`. -/
def makitoExtractVariants (raw : MakitoRaw) : List MakitoVariant :=
  (raw.variants.getD []).map (fun v =>
    { matnr := v.matnr.getD "", refct := v.refct.getD "",
      colour := v.colour.getD "", colourName := v.colourname.getD "",
      size := v.size.getD "", image := v.image500px.getD "" })

/-- `MakitoParser._standardize_product_data`. -/
def standardizeMakitoProduct (raw : MakitoRaw) : MakitoProduct :=
  { supplierRef := raw.ref.getD "",
    name := raw.name.getD "",
    typ := raw.typ.getD "",
    description := raw.extendedinfo.getD "",
    shortDescription := raw.otherinfo.getD "",
    composition := raw.composition.getD "",
    brand := raw.brand.getD "",
    dimensions := pyStripChar 'x'
      ((raw.itemLong.getD "") ++ "x" ++ (raw.itemWidth.getD "") ++ "x" ++
        (raw.itemHight.getD "")),
    weight := raw.itemWeight.getD "",
    mainImage := raw.imagemain.getD "",
    images := makitoExtractImages raw,
    categories := makitoExtractCategories raw,
    variants := makitoExtractVariants raw,
    printCode := raw.printcode.getD "",
    keywords := raw.keywords.getD "" }

/-- `MakitoParser.get_products`.  `kwargsLimit` models a `limit=` keyword
argument swallowed by `**kwargs`; the body never reads it.  The cache path
returns the full cached list unsliced. -/
def makitoGetProducts (kwargsLimit : Option Nat)
    (cache : Option (List MakitoProduct)) (forceRefresh : Bool)
    (file : Option (List MakitoRaw)) :
    Except SupplierErr (List MakitoProduct) :=
  let cacheHit : Option (List MakitoProduct) :=
    match cache with
    | some c => if c ≠ [] ∧ ¬ forceRefresh then some c else none
    | none => none
  match cacheHit with
  | some c => .ok c
  | none =>
    match file with
    | none => .error (.apiError "Errore recupero prodotti")
    | some raws => .ok (raws.map standardizeMakitoProduct)

/-! ## Midocean REST client (`suppliers/clients/midocean_client.py`)

`get_products(self, language='it', **kwargs)` also has no `limit`
parameter; the HTTP layer is a parameter (`response`), and the function
returns the raw JSON product objects unchanged, so it is polymorphic in
the item type. -/

inductive MidoJson (α : Type)
  | obj (products : Option (List α))
  | arr (items : List α)

/-- The `'products' in data` / `isinstance(data, list)` extraction in
`MidoceanClient.get_products` (neither case leaves the initial `[]`). -/
def midoceanExtractProducts {α : Type} : MidoJson α → List α
  | .obj (some ps) => ps
  | .obj none => []
  | .arr items => items

/-- `MidoceanClient.get_products`: `kwargsLimit` is a `limit=` keyword
swallowed by `**kwargs` and never read; the cache path returns the full
cached list. -/
def midoceanGetProducts {α : Type} (kwargsLimit : Option Nat)
    (cache : Option (List α)) (forceRefresh : Bool)
    (response : Except SupplierErr (MidoJson α)) :
    Except SupplierErr (List α) :=
  let cacheHit : Option (List α) :=
    match cache with
    | some c => if ¬ c.isEmpty ∧ ¬ forceRefresh then some c else none
    | none => none
  match cacheHit with
  | some c => .ok c
  | none =>
    match response with
    | .ok j => .ok (midoceanExtractProducts j)
    | .error _ => .error (.apiError "Errore recupero prodotti")

/-! ## Persisted data model (`suppliers/models.py`, `products/models.py`,
`sync/models.py`)

Rows carry the columns the claims touch; the relational store is a `DB`
value threaded through the sync operations.  `Product.sku` and
`ProductVariant.sku` are `unique=True` columns: the uniqueness check lives
in the write operations below, which fail (IntegrityError) exactly when
the database would. -/

structure Supplier where
  id : Nat
  code : String
  name : String
  supplierType : String
  isActive : Bool
deriving DecidableEq

structure ProductRow where
  id : Nat
  supplierId : Nat
  supplierRef : String
  sku : String
deriving DecidableEq

structure VariantRow where
  id : Nat
  productId : Nat
  supplierVariantRef : String
  sku : String
  color : String
  colorCode : String
  size : String
  gtin : String
  image : String
deriving DecidableEq

structure StockRow where
  variantId : Nat
  stockQuantity : Int
  availabilityStatus : String
  nextArrivalDate : Option String
  nextArrivalQuantity : Option Int
deriving DecidableEq

structure PriceRow where
  id : Nat
  variantId : Nat
  price : Rat
  currency : String
  minQuantity : Int
  maxQuantity : Option Int
  validUntil : Option String
  isActive : Bool
deriving DecidableEq

structure SyncErrorRow where
  supplierId : Nat
  errorType : String
  severity : String
  errorMessage : String
  objectType : String
  objectId : String
deriving DecidableEq

structure DB where
  products : List ProductRow
  variants : List VariantRow
  stocks : List StockRow
  prices : List PriceRow
  syncErrors : List SyncErrorRow
  nextVariantId : Nat
  nextPriceId : Nat
deriving DecidableEq

/-- `SyncService._find_variant_by_sku`: the variant with the given SKU
whose product belongs to the supplier (`sku=None` matches nothing, like a
SQL `NULL` filter). -/
def findVariantBySku (db : DB) (sku : Option String) (sup : Supplier) :
    Option VariantRow :=
  match sku with
  | none => none
  | some s =>
    db.variants.find? (fun v => v.sku = s ∧
      (db.products.find? (fun p => p.id = v.productId)).any
        (fun p => p.supplierId = sup.id))

/-! ## DataMapper stock and price mappers (`sync/services/data_mapper.py`)

Each mapper returns a Python dict; keys a mapper does not set are `none`
so that the orchestrator's `mapped.get(key, default)` reads behave
exactly as in the source (`_map_bic_stock` sets `quantity` but not
`stock_quantity`, `_map_makito_prices` sets `supplier_ref` but not
`sku`). -/

structure RawStock where
  sku : Option String
  supplierRef : Option String
  color : Option String
  size : Option String
  stockQuantity : Option Int
  availability : Option String
  qty : Option Int
  firstArrivalDate : Option String
  firstArrivalQty : Option Int
deriving DecidableEq

structure MappedStock where
  sku : Option String
  stockQuantity : Option Int
  availabilityStatus : Option String
  nextArrivalDate : Option String
  nextArrivalQuantity : Option Int
deriving DecidableEq

/-- `DataMapper._map_midocean_stock`. -/
def mapMidoceanStock (raw : RawStock) : MappedStock :=
  { sku := some (raw.sku.getD ""),
    stockQuantity := some (raw.qty.getD 0),
    availabilityStatus :=
      some (if 0 < raw.qty.getD 0 then "available" else "out_of_stock"),
    nextArrivalDate := raw.firstArrivalDate,
    nextArrivalQuantity :=
      match raw.firstArrivalQty with
      | some n => if n ≠ 0 then some n else none
      | none => none }

/-- `DataMapper._map_makito_stock` (no next-arrival keys are set). -/
def mapMakitoStock (raw : RawStock) : MappedStock :=
  { sku := some (raw.sku.getD ""),
    stockQuantity := some (raw.stockQuantity.getD 0),
    availabilityStatus := some (raw.availability.getD "unknown"),
    nextArrivalDate := none,
    nextArrivalQuantity := none }

/-- `DataMapper._map_bic_stock`: sets `sku` and a `quantity` key, but not
`stock_quantity` / `availability_status` / next-arrival keys. -/
def mapBicStock (raw : RawStock) : MappedStock :=
  { sku := some (raw.sku.getD ""),
    stockQuantity := none,
    availabilityStatus := none,
    nextArrivalDate := none,
    nextArrivalQuantity := none }

/-- `DataMapper.map_stock_data` dispatch; an unsupported supplier type
raises `ValueError`. -/
def mapStockData (sup : Supplier) (raw : RawStock) :
    Except String MappedStock :=
  if sup.supplierType = "MIDOCEAN" then .ok (mapMidoceanStock raw)
  else if sup.supplierType = "MAKITO" then .ok (mapMakitoStock raw)
  else if sup.supplierType = "BIC" then .ok (mapBicStock raw)
  else .error ("Supplier type non supportato: " ++ sup.supplierType)

/-- One scale entry of a Midocean price-list record. -/
structure MidoScale where
  price : Option Rat
  minimumQuantity : Option Int
deriving DecidableEq

/-- Raw Midocean price-list record (JSON object). -/
structure MidoRawPrice where
  sku : Option String
  price : Option Rat
  scale : Option (List MidoScale)
  validUntil : Option String
deriving DecidableEq

/-- One `{min_quantity, price}` range of a standardized Makito/MKTO price
record. -/
structure MakitoPriceRange where
  minQuantity : Int
  price : Rat
deriving DecidableEq

/-- Standardized Makito/MKTO price record as consumed by
`_map_makito_prices`. -/
structure MakitoPriceData where
  supplierRef : Option String
  priceRanges : Option (List MakitoPriceRange)
deriving DecidableEq

/-- Unified mapped price tier (dict produced by the `_map_*_prices`
functions; unset keys are `none`). -/
structure MappedPrice where
  sku : Option String
  supplierRef : Option String
  price : Rat
  minQuantity : Int
  maxQuantity : Option Int
  currency : String
  validUntil : Option String
deriving DecidableEq

/-- `DataMapper._map_midocean_prices`: a base tier at quantity 1 plus one
tier per scale entry; every tier has `max_quantity = None`. -/
def mapMidoceanPrices (raw : MidoRawPrice) : List MappedPrice :=
  let sku := raw.sku.getD ""
  let base : MappedPrice :=
    { sku := some sku, supplierRef := none,
      price := raw.price.getD 0, minQuantity := 1, maxQuantity := none,
      currency := "EUR", validUntil := raw.validUntil }
  base :: (raw.scale.getD []).map (fun sc =>
    { sku := some sku, supplierRef := none,
      price := sc.price.getD 0,
      minQuantity := sc.minimumQuantity.getD 1,
      maxQuantity := none, currency := "EUR",
      validUntil := raw.validUntil })

/-- `DataMapper._map_makito_prices`: ranges with positive price; no `sku`
key is set, `max_quantity = None`, no `valid_until` key. -/
def mapMakitoPrices (raw : MakitoPriceData) : List MappedPrice :=
  (raw.priceRanges.getD []).filterMap (fun pr =>
    if 0 < pr.price then
      some { sku := none, supplierRef := raw.supplierRef,
             price := pr.price, minQuantity := pr.minQuantity,
             maxQuantity := none, currency := "EUR", validUntil := none }
    else none)

/-- `DataMapper._map_bic_prices` over a standardized BIC product: one
mapped tier per parser tier; no `valid_until` key is set. -/
def mapBicPrices (raw : BicProduct) : List MappedPrice :=
  raw.prices.map (fun t =>
    { sku := some raw.sku, supplierRef := some raw.supplierRef,
      price := t.price, minQuantity := t.minQuantity,
      maxQuantity := some t.maxQuantity, currency := t.currency,
      validUntil := none })

/-- Raw price payload handed to `DataMapper.map_price_data` (the dict
shape depends on which client produced it). -/
inductive RawPrice
  | midocean (p : MidoRawPrice)
  | makito (p : MakitoPriceData)
  | bic (p : BicProduct)
deriving DecidableEq

/-- `DataMapper.map_price_data` dispatch on `supplier.supplier_type`; a
payload of the wrong shape for the branch would raise inside the mapper
(modelled as an error), an unsupported type raises `ValueError`. -/
def mapPriceData (sup : Supplier) (raw : RawPrice) :
    Except String (List MappedPrice) :=
  if sup.supplierType = "MIDOCEAN" then
    match raw with
    | .midocean p => .ok (mapMidoceanPrices p)
    | _ => .error "AttributeError"
  else if sup.supplierType = "MAKITO" then
    match raw with
    | .makito p => .ok (mapMakitoPrices p)
    | _ => .error "AttributeError"
  else if sup.supplierType = "BIC" then
    match raw with
    | .bic p => .ok (mapBicPrices p)
    | _ => .error "AttributeError"
  else .error ("Supplier type non supportato: " ++ sup.supplierType)

/-! ## Sync orchestrator (`sync/services/sync_service.py`) -/

/-- The `self.stats` counters the product loop touches. -/
structure SyncStats where
  productsProcessed : Nat
  productsCreated : Nat
  productsUpdated : Nat
  productsErrors : Nat
deriving DecidableEq

def SyncStats.zero : SyncStats :=
  { productsProcessed := 0, productsCreated := 0,
    productsUpdated := 0, productsErrors := 0 }

/-! ### `_sync_stock` -/

/-- The `Stock.objects.update_or_create(variant=variant, defaults=...)`
write: replace the variant's one-to-one stock row, or append it. -/
def upsertStock (db : DB) (variantId : Nat) (ms : MappedStock) : DB :=
  let newRow : StockRow :=
    { variantId := variantId,
      stockQuantity := ms.stockQuantity.getD 0,
      availabilityStatus := ms.availabilityStatus.getD "unknown",
      nextArrivalDate := ms.nextArrivalDate,
      nextArrivalQuantity := ms.nextArrivalQuantity }
  if db.stocks.any (fun s => s.variantId = variantId) then
    { db with
      stocks := db.stocks.map
        (fun s => if s.variantId = variantId then newRow else s) }
  else
    { db with stocks := db.stocks ++ [newRow] }

/-- Body of the `for stock_data in raw_stock` loop in
`SyncService._sync_stock`: map, resolve the variant by SKU, and only when
found overwrite the stock row and advance the counter; a mapper exception
is logged and skipped, an unresolvable SKU is skipped silently. -/
def syncStockOne (sup : Supplier) (st : DB × Nat) (raw : RawStock) :
    DB × Nat :=
  match mapStockData sup raw with
  | .error _ => st
  | .ok ms =>
    match findVariantBySku st.fst ms.sku sup with
    | none => st
    | some v => (upsertStock st.fst v.id ms, st.snd + 1)

/-- `SyncService._sync_stock` (returns the updated store and the
`updated_count`). -/
def syncStock (sup : Supplier) (db : DB) (raws : List RawStock) :
    DB × Nat :=
  raws.foldl (syncStockOne sup) (db, 0)

/-! ### `_sync_prices` -/

/-- `Price.objects.filter(variant=variant).update(is_active=False)`. -/
def deactivatePricesOf (variantId : Nat) (prices : List PriceRow) :
    List PriceRow :=
  prices.map (fun r =>
    if r.variantId = variantId then { r with isActive := false } else r)

/-- One mapped tier inside `_sync_prices`: resolve the variant; if found,
deactivate all its price rows, then insert the tier as a fresh active
row. -/
def applyMappedPrice (sup : Supplier) (st : DB × Nat) (mp : MappedPrice) :
    DB × Nat :=
  let (db, updated) := st
  match findVariantBySku db mp.sku sup with
  | none => (db, updated)
  | some v =>
    let newRow : PriceRow :=
      { id := db.nextPriceId, variantId := v.id, price := mp.price,
        currency := mp.currency, minQuantity := mp.minQuantity,
        maxQuantity := mp.maxQuantity, validUntil := mp.validUntil,
        isActive := true }
    ({ db with prices := deactivatePricesOf v.id db.prices ++ [newRow],
               nextPriceId := db.nextPriceId + 1 },
     updated + 1)

/-- Body of the `for price_data in raw_prices` loop: map the record (a
mapper exception is logged and the record skipped), then apply each mapped
tier in order. -/
def syncPricesOne (sup : Supplier) (st : DB × Nat) (raw : RawPrice) :
    DB × Nat :=
  match mapPriceData sup raw with
  | .error _ => st
  | .ok mapped => mapped.foldl (applyMappedPrice sup) st

/-- `SyncService._sync_prices`. -/
def syncPrices (sup : Supplier) (db : DB) (raws : List RawPrice) :
    DB × Nat :=
  raws.foldl (syncPricesOne sup) (db, 0)

/-! ### `_sync_product_variants` -/

/-- The mapped variant dict consumed by `_sync_product_variants` (all
mappers set these keys, possibly to `''`). -/
structure VariantData where
  sku : String
  supplierVariantRef : String
  color : String
  colorCode : String
  size : String
  gtin : String
  image : String
deriving DecidableEq

/-- SKU computation in `_sync_product_variants`: strip the incoming SKU;
if empty, synthesize `MAK_<ref>_<color>_<size>` and clean slashes, spaces
and doubled underscores. -/
def computeVariantSku (product : ProductRow) (vd : VariantData) : String :=
  let sku := pyStrip vd.sku
  if sku = "" then
    let s := "MAK_" ++ product.supplierRef ++ "_" ++ vd.color ++ "_" ++
      vd.size
    pyReplace (pyReplace (pyReplace s "/" "") " " "_") "__" "_"
  else sku

/-- `supplier_variant_ref` fallback in `_sync_product_variants`. -/
def computeVariantRef (product : ProductRow) (vd : VariantData) : String :=
  let r := pyStrip vd.supplierVariantRef
  if r = "" then product.supplierRef ++ "_" ++ vd.color ++ "_" ++ vd.size
  else r

/-- `ProductVariant.objects.update_or_create(product=..., supplier_variant_ref=...,
defaults={...})` under the `unique=True` SKU column: writing a SKU already
owned by a different row raises `IntegrityError`.  Returns the new store
and the `created` flag. -/
def upsertVariant (db : DB) (product : ProductRow) (ref sku : String)
    (vd : VariantData) : Except String (DB × Bool) :=
  match db.variants.find?
      (fun v => v.productId = product.id ∧ v.supplierVariantRef = ref) with
  | some v0 =>
    if db.variants.any (fun v => v.sku = sku ∧ v.id ≠ v0.id) then
      .error "IntegrityError: duplicate sku"
    else
      .ok ({ db with variants := db.variants.map (fun v =>
        if v.id = v0.id then
          { v0 with sku := sku, color := vd.color, colorCode := vd.colorCode,
                    size := vd.size, gtin := vd.gtin, image := vd.image }
        else v) }, false)
  | none =>
    if db.variants.any (fun v => v.sku = sku) then
      .error "IntegrityError: duplicate sku"
    else
      .ok ({ db with
        variants := db.variants ++
          [{ id := db.nextVariantId, productId := product.id,
             supplierVariantRef := ref, sku := sku, color := vd.color,
             colorCode := vd.colorCode, size := vd.size, gtin := vd.gtin,
             image := vd.image }],
        nextVariantId := db.nextVariantId + 1 }, true)

/-- Body of the `for variant_data in variants_data` loop in
`_sync_product_variants`: compute SKU and ref, append the `_<product.id>`
suffix once when the SKU belongs to a variant of a different product, and
upsert; any exception is caught, recorded as a `VALIDATION_ERROR`
`SyncError` with the *incoming* SKU as object id, and the loop
continues.  The second component counts `variants_processed`. -/
def syncVariantOne (product : ProductRow) (st : DB × Nat)
    (vd : VariantData) : DB × Nat :=
  let (db, processed) := st
  let sku1 := computeVariantSku product vd
  let ref := computeVariantRef product vd
  let sku2 :=
    if db.variants.any (fun v => v.sku = sku1 ∧ v.productId ≠ product.id)
    then sku1 ++ "_" ++ toString product.id
    else sku1
  match upsertVariant db product ref sku2 vd with
  | .ok (db2, created) => (db2, if created then processed + 1 else processed)
  | .error e =>
    ({ db with syncErrors := db.syncErrors ++
        [{ supplierId := product.supplierId, errorType := "VALIDATION_ERROR",
           severity := "MEDIUM",
           errorMessage := "Errore variante: " ++ e,
           objectType := "variant", objectId := vd.sku }] },
     processed)

/-- `SyncService._sync_product_variants`. -/
def syncProductVariants (db : DB) (product : ProductRow)
    (variantsData : List VariantData) : DB × Nat :=
  variantsData.foldl (syncVariantOne product) (db, 0)

/-! ### `_sync_products` (per-record isolation loop)

The per-record work — `map_product_data`, `_create_or_update_product`,
`_sync_product_variants`, `_process_product_enhancements` inside one
`transaction.atomic()` — is the `step` parameter: it either produces the
committed store plus the `created` flag, or raises, in which case the
transaction leaves the store untouched.  The loop itself (lines 156–195)
is transcribed here: on failure it records a `PARSING_ERROR` `SyncError`
carrying the record's `supplier_ref` and keeps iterating. -/

structure ProdSyncState where
  db : DB
  stats : SyncStats
  createdCount : Nat
  updatedCount : Nat
  errorCount : Nat
deriving DecidableEq

def syncProductsStep {α : Type} (refOf : α → String)
    (step : DB → α → Except String (DB × Bool)) (sup : Supplier)
    (st : ProdSyncState) (raw : α) : ProdSyncState :=
  match step st.db raw with
  | .ok (db2, created) =>
    if created then
      { st with
        db := db2,
        stats := { st.stats with
                   productsCreated := st.stats.productsCreated + 1,
                   productsProcessed := st.stats.productsProcessed + 1 },
        createdCount := st.createdCount + 1 }
    else
      { st with
        db := db2,
        stats := { st.stats with
                   productsUpdated := st.stats.productsUpdated + 1,
                   productsProcessed := st.stats.productsProcessed + 1 },
        updatedCount := st.updatedCount + 1 }
  | .error e =>
    { st with
      db := { st.db with
              syncErrors := st.db.syncErrors ++
                [{ supplierId := sup.id, errorType := "PARSING_ERROR",
                   severity := "MEDIUM", errorMessage := e,
                   objectType := "product", objectId := refOf raw }] },
      stats := { st.stats with
                 productsErrors := st.stats.productsErrors + 1 },
      errorCount := st.errorCount + 1 }

/-- The `for raw_product in raw_products` loop of
`SyncService._sync_products`. -/
def syncProductsLoop {α : Type} (refOf : α → String)
    (step : DB → α → Except String (DB × Bool)) (sup : Supplier)
    (st : ProdSyncState) (raws : List α) : ProdSyncState :=
  raws.foldl (syncProductsStep refOf step sup) st

/-! ### `sync_supplier` / `sync_all_suppliers` and `SyncLog` -/

/-- A `SyncLog` row (`suppliers/models.py`). -/
structure SyncLogRow where
  supplierId : Nat
  syncType : String
  status : String
  completed : Bool
deriving DecidableEq

/-- Calling `SyncLog.mark_completed` with a Python argument list.  The
method is declared `def mark_completed(self, status='SUCCESS')`, so a
call with two positional arguments raises `TypeError` before any body
code runs. -/
def markCompletedCall (log : SyncLogRow) (args : List String) :
    Except SupplierErr SyncLogRow :=
  match args with
  | [] => .ok { log with status := "SUCCESS", completed := true }
  | [status] => .ok { log with status := status, completed := true }
  | _ => .error (.typeError
      "mark_completed() takes from 1 to 2 positional arguments but 3 were given")

instance {ε α : Type} [DecidableEq ε] [DecidableEq α] :
    DecidableEq (Except ε α) := fun a b =>
  match a, b with
  | .ok x, .ok y =>
    if h : x = y then isTrue (by rw [h])
    else isFalse (fun hh => by cases hh; exact h rfl)
  | .error x, .error y =>
    if h : x = y then isTrue (by rw [h])
    else isFalse (fun hh => by cases hh; exact h rfl)
  | .ok _, .error _ => isFalse (fun hh => by cases hh)
  | .error _, .ok _ => isFalse (fun hh => by cases hh)

/-- Result of one `sync_supplier` call: the final log row, the store, and
either the returned result's `success` flag or an exception that escaped
the method. -/
structure SupplierRunResult where
  log : SyncLogRow
  db : DB
  outcome : Except SupplierErr Bool
deriving DecidableEq

/-- `SyncService.sync_supplier` with the fetch-and-reconcile pipeline
(`create_client` + `_sync_products` + `_sync_stock` + `_sync_prices` +
WooCommerce push) as the `body` parameter.  On a pipeline exception the
method records a `SYSTEM_ERROR` `SyncError` and then calls
`sync_log.mark_completed('ERROR', error_msg)` — two positional
arguments. -/
def syncSupplier (sup : Supplier) (db : DB)
    (body : DB → Except String (DB × SyncStats)) : SupplierRunResult :=
  let log : SyncLogRow :=
    { supplierId := sup.id, syncType := "FULL", status := "RUNNING",
      completed := false }
  match body db with
  | .ok (db2, _) =>
    match markCompletedCall log ["SUCCESS"] with
    | .ok log2 => { log := log2, db := db2, outcome := .ok true }
    | .error e => { log := log, db := db2, outcome := .error e }
  | .error msg =>
    let db2 := { db with syncErrors := db.syncErrors ++
      [{ supplierId := sup.id, errorType := "SYSTEM_ERROR",
         severity := "HIGH", errorMessage := msg, objectType := "",
         objectId := "" }] }
    let errorMsg := "Errore sincronizzazione " ++ sup.name ++ ": " ++ msg
    match markCompletedCall log ["ERROR", errorMsg] with
    | .ok log2 => { log := log2, db := db2, outcome := .ok false }
    | .error e => { log := log, db := db2, outcome := .error e }

/-- `SyncService.sync_all_suppliers`: iterate the active suppliers; an
exception escaping `sync_supplier` is caught per supplier and recorded as
a failed result, and the loop continues.  Returns the store, one
`(name, success)` result per active supplier, and the final log rows. -/
def syncAllSuppliers (suppliers : List Supplier)
    (bodies : Supplier → DB → Except String (DB × SyncStats)) (db : DB) :
    DB × List (String × Bool) × List SyncLogRow :=
  (suppliers.filter (·.isActive)).foldl
    (fun acc sup =>
      let (dbAcc, results, logs) := acc
      let r := syncSupplier sup dbAcc (bodies sup)
      match r.outcome with
      | .ok flag => (r.db, results ++ [(sup.name, flag)], logs ++ [r.log])
      | .error _ => (r.db, results ++ [(sup.name, false)], logs ++ [r.log]))
    (db, [], [])

/-! # Theorems about the claims -/

/-- An empty relational store. -/
def emptyDB : DB :=
  { products := [], variants := [], stocks := [], prices := [],
    syncErrors := [], nextVariantId := 0, nextPriceId := 0 }

/-! ## C2: fetch/parse errors and the per-supplier loop -/

def c2SupMid : Supplier :=
  { id := 1, code := "MID", name := "Midocean", supplierType := "MIDOCEAN",
    isActive := true }

def c2SupMkto : Supplier :=
  { id := 2, code := "MKTO", name := "MKTO", supplierType := "MAKITO",
    isActive := true }

def c2SupBic : Supplier :=
  { id := 3, code := "BIC", name := "BIC", supplierType := "BIC",
    isActive := true }

/-- Pipelines for the C2 scenario: the MKTO supplier's fetch raises
(missing XML file), the other two succeed. -/
def c2Bodies : Supplier → DB → Except String (DB × SyncStats) :=
  fun sup db =>
    if sup.id = 2 then .error "File XML non trovato" else .ok (db, SyncStats.zero)

/-- C2: the claim says a fetch failure marks that supplier's sync log
`ERROR` while other suppliers proceed.  The code is wrong on the first
half: the except-branch calls `sync_log.mark_completed('ERROR', error_msg)`
with an error-message argument that `SyncLog.mark_completed(self,
status='SUCCESS')` does not accept (only its sibling
`SyncTask.mark_completed` does), so a `TypeError` is raised, the log keeps
status `RUNNING`, and the exception escapes `sync_supplier`.  The second
half holds: `sync_all_suppliers` catches per-supplier exceptions, so the
other suppliers still run. -/
theorem c2_fetch_error_log_status_bug :
    (syncSupplier c2SupMkto emptyDB (c2Bodies c2SupMkto)).log.status = "RUNNING"
    ∧ (syncSupplier c2SupMkto emptyDB (c2Bodies c2SupMkto)).log.status ≠ "ERROR"
    ∧ (syncSupplier c2SupMkto emptyDB (c2Bodies c2SupMkto)).outcome =
        .error (.typeError
          "mark_completed() takes from 1 to 2 positional arguments but 3 were given")
    ∧ (∃ e ∈ (syncSupplier c2SupMkto emptyDB (c2Bodies c2SupMkto)).db.syncErrors,
        e.errorType = "SYSTEM_ERROR" ∧ e.supplierId = 2)
    ∧ (syncAllSuppliers [c2SupMid, c2SupMkto, c2SupBic] c2Bodies emptyDB).2.1 =
        [("Midocean", true), ("MKTO", false), ("BIC", true)]
    ∧ (syncAllSuppliers [c2SupMid, c2SupMkto, c2SupBic] c2Bodies emptyDB).2.2.map
        SyncLogRow.status = ["SUCCESS", "RUNNING", "SUCCESS"] := by
  decide

/-! ## C3: the `limit` argument across the three client families -/

/-- A Makito raw product record carrying only a reference. -/
def makitoRawOfRef (r : String) : MakitoRaw :=
  { ref := some r, name := none, typ := none, extendedinfo := none,
    otherinfo := none, composition := none, brand := none, itemLong := none,
    itemWidth := none, itemHight := none, itemWeight := none,
    imagemain := none, images := none, categoryRefs := none,
    categoryNames := none, variants := none, printcode := none,
    keywords := none }

/-- C3 counterexample: the claim says every factory client's product fetch
with `limit=N` returns at most `N` records.  `MakitoParser.get_products`
swallows `limit` in `**kwargs` and never reads it: with a two-product feed
and `limit=1` it returns 2 records. -/
theorem c3_limit_counterexample :
    (makitoGetProducts (some 1) none false
        (some [makitoRawOfRef "A", makitoRawOfRef "B"])).map List.length =
      .ok 2
    ∧ ¬ (2 ≤ 1) := by
  constructor
  · rfl
  · decide

/-- The record loop of `MKTOParser.get_products` keeps at most
`n - count` further records beyond the accumulator once `count < n`. -/
theorem mktoParseProducts_length_le (n : Nat) (events : List MktoFeedEvent) :
    ∀ (count : Nat) (acc l : List MktoProduct), count < n →
      mktoParseProducts (some n) count acc events = .ok l →
      l.length ≤ (n - count) + acc.length := by
  induction events with
  | nil =>
    intro count acc l _ h
    simp only [mktoParseProducts] at h
    cases h
    simp
  | cons ev rest ih =>
    intro count acc l hlt h
    cases ev with
    | malformed => simp [mktoParseProducts] at h
    | elem raw =>
      simp only [mktoParseProducts, Option.getD_some] at h
      by_cases hstop : pyTruthyNat (some n) = true ∧ n ≤ count + 1
      · rw [if_pos hstop] at h
        cases h
        have h1 : 1 ≤ n - count := by omega
        simp only [List.length_reverse, List.length_cons]
        omega
      · rw [if_neg hstop] at h
        have hn : 0 < n := by omega
        have hcount : count + 1 < n := by
          rcases Nat.lt_or_ge (count + 1) n with h1 | h1
          · exact h1
          · exact absurd ⟨by simp [pyTruthyNat]; omega, h1⟩ hstop
        have := ih (count + 1) (standardizeMktoProduct raw :: acc) l hcount h
        simp only [List.length_cons] at this
        omega

/-- `assocUpdate` grows an association list by at most one entry. -/
theorem assocUpdate_length_le {α : Type} (k : String) (v : α) :
    ∀ l : List (String × α), (assocUpdate k v l).length ≤ l.length + 1 := by
  intro l
  induction l with
  | nil => simp [assocUpdate]
  | cons p rest ih =>
    simp only [assocUpdate]
    by_cases h : p.fst = k
    · rw [if_pos h]; simp
    · rw [if_neg h]; simp only [List.length_cons]; omega

/-- The grouping loop of `BICParser.get_products` never gathers more than
`limit` distinct product codes. -/
theorem bicGroupRows_go_length_le (n : Nat) (rows : List BicRow) :
    ∀ acc, acc.length < n →
      (bicGroupRows.go (some n) acc rows).length ≤ n := by
  induction rows with
  | nil =>
    intro acc hacc
    simp only [bicGroupRows.go]
    omega
  | cons row rest ih =>
    intro acc hacc
    simp only [bicGroupRows.go]
    by_cases h1 : row.active ≠ "1"
    · rw [if_pos h1]; exact ih acc hacc
    · rw [if_neg h1]
      by_cases h2 : pyStrip row.productCode = ""
      · rw [if_pos h2]; exact ih acc hacc
      · rw [if_neg h2]
        simp only [Option.getD_some]
        set acc2 :=
          match lookupA (pyStrip row.productCode) acc with
          | some langs =>
            assocUpdate (pyStrip row.productCode)
              (assocUpdate (pyStrip row.language) row langs) acc
          | none => acc ++ [(pyStrip row.productCode, [(pyStrip row.language, row)])]
          with hacc2
        have hlen : acc2.length ≤ acc.length + 1 := by
          rw [hacc2]
          cases hl : lookupA (pyStrip row.productCode) acc with
          | some langs => simpa using assocUpdate_length_le _ _ acc
          | none => simp
        by_cases h3 : pyTruthyNat (some n) = true ∧ n ≤ acc2.length
        · rw [if_pos h3]; omega
        · rw [if_neg h3]
          rcases Nat.lt_or_ge acc2.length n with h4 | h4
          · exact ih acc2 h4
          · exact absurd ⟨by simp [pyTruthyNat]; omega, h4⟩ h3

/-- C3 (amended): the MKTO streaming parser and the BIC grouped-CSV parser
honour `limit=N` (at most `N` records, on the cache path and the fresh
path alike), but the Makito XML parser and the Midocean REST client accept
the `limit` keyword only through `**kwargs` and ignore it, returning the
full record set. -/
theorem c3_limit_amended :
    (∀ (cache : Option (List MktoProduct)) (forceRefresh : Bool) (n : Nat)
        (fileExists : Bool) (events : List MktoFeedEvent)
        (l : List MktoProduct), 0 < n →
        mktoGetProducts cache forceRefresh (some n) fileExists events = .ok l →
        l.length ≤ n)
    ∧ (∀ (pref : String) (fileExists : Bool) (rows : List BicRow) (n : Nat)
        (l : List BicProduct), 0 < n →
        bicGetProducts pref fileExists rows (some n) = .ok l →
        l.length ≤ n)
    ∧ (∀ (a b : Option Nat) (cache : Option (List MakitoProduct))
        (forceRefresh : Bool) (file : Option (List MakitoRaw)),
        makitoGetProducts a cache forceRefresh file =
          makitoGetProducts b cache forceRefresh file)
    ∧ (∀ (α : Type) (a b : Option Nat) (cache : Option (List α))
        (forceRefresh : Bool) (response : Except SupplierErr (MidoJson α)),
        midoceanGetProducts a cache forceRefresh response =
          midoceanGetProducts b cache forceRefresh response) := by
  refine ⟨?_, ?_, ?_, ?_⟩
  · intro cache forceRefresh n fileExists events l hn h
    have hfresh : ∀ hh : (if ¬ fileExists = true then
          (.error (.apiError "Errore recupero prodotti: File XML non trovato") :
            Except SupplierErr (List MktoProduct))
        else
          match mktoParseProducts (some n) 0 [] events with
          | .ok products => .ok products
          | .error _ => .error (.apiError "Errore recupero prodotti")) = .ok l,
        l.length ≤ n := by
      intro hh
      cases fileExists with
      | false => simp at hh
      | true =>
        rw [if_neg (by simp)] at hh
        cases hp : mktoParseProducts (some n) 0 [] events with
        | ok products =>
          rw [hp] at hh
          cases hh
          have := mktoParseProducts_length_le n events 0 [] l hn hp
          simpa using this
        | error e => rw [hp] at hh; cases hh
    cases cache with
    | none =>
      cases forceRefresh <;>
        exact hfresh (by simpa [mktoGetProducts] using h)
    | some cached =>
      cases forceRefresh with
      | true => exact hfresh (by simpa [mktoGetProducts] using h)
      | false =>
        by_cases hc : cached = []
        · subst hc
          exact hfresh (by simpa [mktoGetProducts] using h)
        · have h2 : (Except.ok (pySliceOpt cached (some n)) :
              Except SupplierErr (List MktoProduct)) = .ok l := by
            simpa [mktoGetProducts, hc] using h
          cases h2
          have htr : pyTruthyNat (some n) = true := by
            simp [pyTruthyNat]; omega
          simp only [pySliceOpt, htr, if_pos]
          simp [List.length_take_le]
  · intro pref fileExists rows n l hn h
    cases fileExists with
    | false =>
      have h2 : (Except.ok ([] : List BicProduct) :
          Except SupplierErr (List BicProduct)) = .ok l := by
        simpa [bicGetProducts] using h
      cases h2
      simp
    | true =>
      have h2 : (Except.ok ((bicGroupRows (some n) rows).filterMap
            (fun g => standardizeBicProduct pref g.fst g.snd)) :
          Except SupplierErr (List BicProduct)) = .ok l := by
        simpa [bicGetProducts] using h
      cases h2
      calc ((bicGroupRows (some n) rows).filterMap
              (fun g => standardizeBicProduct pref g.fst g.snd)).length
        ≤ (bicGroupRows (some n) rows).length := List.length_filterMap_le _ _
        _ ≤ n := by
          unfold bicGroupRows
          exact bicGroupRows_go_length_le n rows [] (by simpa using hn)
  · intro a b cache forceRefresh file
    rfl
  · intro α a b cache forceRefresh response
    rfl

def c3MktoRaw : MktoRaw :=
  { ref := some "R1", name := some "Prod", typ := none, extendedinfo := none,
    otherinfo := none, composition := none, brand := none,
    itemWeight := none, itemLong := none, itemWidth := none,
    itemHight := none, imagemain := none, images := none,
    categoryNames := none, variants := none, printcode := none,
    keywords := none }

/-- C3 amended-claim witness: a fresh MKTO parse of a one-product feed
with `limit = 1` returns a list bounded by the limit. -/
theorem c3_limit_amended_witness :
    (0 < 1)
    ∧ mktoGetProducts none false (some 1) true [.elem c3MktoRaw] =
        .ok [standardizeMktoProduct c3MktoRaw]
    ∧ [standardizeMktoProduct c3MktoRaw].length ≤ 1 :=
  ⟨Nat.zero_lt_one, rfl,
   c3_limit_amended.1 none false 1 true [.elem c3MktoRaw]
     [standardizeMktoProduct c3MktoRaw] Nat.zero_lt_one rfl⟩

/-! ## C6: BIC locale-priority selection -/

/-- A minimal active BIC CSV row for one locale. -/
def bicRowOf (lang nm ds : String) : BicRow :=
  { active := "1", productCode := "P1", language := lang, name := nm,
    description := ds, benefits := "", brand := none, listImage := "",
    imprintTemplate := "", materials := "", countryOfOrigin := "",
    customsCode := "", width := "", height := "", depth := "",
    diameter := "", weight := some "", priceCurrency := none,
    minQty := fun _ => "", maxQty := fun _ => "", price := fun _ => "" }

/-- C6: multi-locale row groups select the main row by priority —
the configured preferred locale if present, else `en`, else the first
locale present — and the standardized product's name and description come
from that selected row. -/
theorem c6_language_priority (pref code : String)
    (langs : List (String × BicRow)) :
    (∀ r, lookupA pref langs = some r → selectMainData pref langs = some r)
    ∧ (lookupA pref langs = none → ∀ r, lookupA "en" langs = some r →
        selectMainData pref langs = some r)
    ∧ (lookupA pref langs = none → lookupA "en" langs = none →
        selectMainData pref langs = langs.head?.map Prod.snd)
    ∧ (∀ p, standardizeBicProduct pref code langs = some p →
        ∃ m, selectMainData pref langs = some m ∧
          p.name = pyStrip m.name ∧ p.description = pyStrip m.description) := by
  refine ⟨?_, ?_, ?_, ?_⟩
  · intro r h
    unfold selectMainData
    rw [h]
  · intro h1 r h2
    unfold selectMainData
    rw [h1, h2]
  · intro h1 h2
    unfold selectMainData
    rw [h1, h2]
  · intro p h
    unfold standardizeBicProduct at h
    split at h
    · exact Option.noConfusion h
    · rename_i m hm
      split at h
      · exact Option.noConfusion h
      · rename_i w hw
        cases h
        exact ⟨m, hm, rfl, rfl⟩

def c6RowIt : BicRow := bicRowOf "it" "Penna IT" "Descrizione IT"

def c6RowEn : BicRow := bicRowOf "en" "Pen EN" "Description EN"

def c6Langs : List (String × BicRow) := [("it", c6RowIt), ("en", c6RowEn)]

/-- The standardized product the C6 scenario produces. -/
def c6Prod : BicProduct :=
  { supplierRef := "P1", sku := "BIC_P1", name := "Penna IT",
    description := "Descrizione IT", shortDescription := "", brand := "BIC",
    active := true, images := [], categories := ["Prodotti Promozionali"],
    dimensions := { width := none, height := none, depth := none,
                    diameter := none },
    weight := none, materials := "", countryOfOrigin := "", customsCode := "",
    variants := [{ supplierVariantRef := "P1", sku := "BIC_P1", color := "",
                   size := "", gtin := "", image := "", currentStock := 0,
                   currentPrice := none }],
    prices := [] }

/-- C6 witness: the spec scenario — rows for `it` and `en`, preferred
locale `it` — selects the `it` row's name and description. -/
theorem c6_language_priority_witness :
    lookupA "it" c6Langs = some c6RowIt
    ∧ selectMainData "it" c6Langs = some c6RowIt
    ∧ standardizeBicProduct "it" "P1" c6Langs = some c6Prod
    ∧ c6Prod.name = pyStrip c6RowIt.name
    ∧ c6Prod.description = pyStrip c6RowIt.description := by
  have hsel : selectMainData "it" c6Langs = some c6RowIt :=
    (c6_language_priority "it" "P1" c6Langs).1 c6RowIt rfl
  have hstd : standardizeBicProduct "it" "P1" c6Langs = some c6Prod := by
    decide
  obtain ⟨m, hm, h1, h2⟩ :=
    (c6_language_priority "it" "P1" c6Langs).2.2.2 c6Prod hstd
  have hmr : m = c6RowIt := by
    rw [hsel] at hm
    exact (Option.some.inj hm).symm
  subst hmr
  exact ⟨rfl, hsel, hstd, h1, h2⟩

/-! ## C7: malformed element in the streaming-XML feed -/

/-- An MKTO raw product record carrying only a reference. -/
def mktoRawOfRef (r : String) : MktoRaw :=
  { ref := some r, name := none, typ := none, extendedinfo := none,
    otherinfo := none, composition := none, brand := none,
    itemWeight := none, itemLong := none, itemWidth := none,
    itemHight := none, imagemain := none, images := none,
    categoryNames := none, variants := none, printcode := none,
    keywords := none }

/-- C7 counterexample: the claim says a 3-element feed with one malformed
element yields exactly the 2 valid records without raising.  The code
instead aborts the whole fetch: `ET.iterparse` raises at the malformed
region, `_parse_xml_iterative` wraps it in `DataParsingError`, and
`get_products` re-raises `APIError` — no records are returned. -/
theorem c7_malformed_feed_counterexample :
    mktoGetProducts none false none true
      [.elem (mktoRawOfRef "A"), .malformed, .elem (mktoRawOfRef "B")] =
      .error (.apiError "Errore recupero prodotti") := by
  rfl

/-- Without a `limit` cutoff the record loop always reaches a malformed
region and raises `DataParsingError`. -/
theorem mktoParseProducts_malformed (pre post : List MktoFeedEvent) :
    ∀ (count : Nat) (acc : List MktoProduct),
      mktoParseProducts none count acc (pre ++ .malformed :: post) =
        .error (.dataParsingError "Errore parsing XML") := by
  induction pre with
  | nil => intro count acc; rfl
  | cons ev rest ih =>
    intro count acc
    cases ev with
    | malformed => rfl
    | elem raw =>
      simp only [List.cons_append, mktoParseProducts]
      rw [if_neg (by simp [pyTruthyNat])]
      exact ih _ _

/-- C7 (amended): an unlimited, uncached product fetch over a feed
containing a malformed element raises `APIError` (wrapping the parse
error); it does not yield the valid records around it. -/
theorem c7_malformed_feed_amended (pre post : List MktoFeedEvent)
    (forceRefresh : Bool) :
    mktoGetProducts none forceRefresh none true
        (pre ++ .malformed :: post) =
      .error (.apiError "Errore recupero prodotti") := by
  have h := mktoParseProducts_malformed pre post 0 []
  cases forceRefresh <;> simp [mktoGetProducts, h]

/-! ## C8: missing BIC CSV file -/

/-- C8 counterexample: the claim says a missing CSV file fails with
`NotFoundError`; `BICParser.get_products` instead logs and returns an
empty successful result. -/
theorem c8_missing_file_counterexample :
    bicGetProducts "it" false [bicRowOf "it" "Pen" "Desc"] none =
      .ok ([] : List BicProduct) := by
  rfl

/-- A standardized BIC product's `supplier_ref` is the group's product
code. -/
theorem standardizeBicProduct_ref (pref code : String)
    (langs : List (String × BicRow)) (p : BicProduct)
    (h : standardizeBicProduct pref code langs = some p) :
    p.supplierRef = code := by
  unfold standardizeBicProduct at h
  split at h
  · exact Option.noConfusion h
  · split at h
    · exact Option.noConfusion h
    · cases h; rfl

/-- A key that `lookupA` misses is not among the keys. -/
theorem lookupA_none_not_mem {α : Type} (k : String)
    (l : List (String × α)) (h : lookupA k l = none) :
    k ∉ l.map Prod.fst := by
  induction l with
  | nil => simp
  | cons p rest ih =>
    simp only [lookupA] at h
    by_cases hk : p.fst = k
    · rw [if_pos hk] at h; cases h
    · rw [if_neg hk] at h
      simp only [List.map_cons, List.mem_cons]
      rintro (h1 | h1)
      · exact hk h1.symm
      · exact ih h h1

/-- Updating an existing key leaves the key list unchanged. -/
theorem assocUpdate_keys_of_mem {α : Type} (k : String) (v : α) :
    ∀ (l : List (String × α)) (x : α), lookupA k l = some x →
      (assocUpdate k v l).map Prod.fst = l.map Prod.fst := by
  intro l
  induction l with
  | nil => intro x h; cases h
  | cons p rest ih =>
    intro x h
    simp only [lookupA] at h
    simp only [assocUpdate]
    by_cases hk : p.fst = k
    · rw [if_pos hk]; simp
    · rw [if_neg hk] at h ⊢
      simp only [List.map_cons, List.cons.injEq, true_and]
      exact ih x h

/-- The grouping loop keeps the product-code keys duplicate-free. -/
theorem bicGroupRows_go_keys_nodup (limit : Option Nat)
    (rows : List BicRow) :
    ∀ acc, (acc.map Prod.fst).Nodup →
      ((bicGroupRows.go limit acc rows).map Prod.fst).Nodup := by
  induction rows with
  | nil => intro acc hacc; simpa [bicGroupRows.go] using hacc
  | cons row rest ih =>
    intro acc hacc
    simp only [bicGroupRows.go]
    by_cases h1 : row.active ≠ "1"
    · rw [if_pos h1]; exact ih acc hacc
    · rw [if_neg h1]
      by_cases h2 : pyStrip row.productCode = ""
      · rw [if_pos h2]; exact ih acc hacc
      · rw [if_neg h2]
        have hacc2 : ∀ acc2, acc2 =
            (match lookupA (pyStrip row.productCode) acc with
              | some langs =>
                assocUpdate (pyStrip row.productCode)
                  (assocUpdate (pyStrip row.language) row langs) acc
              | none =>
                acc ++ [(pyStrip row.productCode,
                  [(pyStrip row.language, row)])]) →
            (acc2.map Prod.fst).Nodup := by
          intro acc2 hdef
          cases hl : lookupA (pyStrip row.productCode) acc with
          | some langs =>
            rw [hl] at hdef
            rw [hdef, assocUpdate_keys_of_mem _ _ acc langs hl]
            exact hacc
          | none =>
            rw [hl] at hdef
            rw [hdef]
            simp only [List.map_append, List.map_cons, List.map_nil]
            rw [List.nodup_append]
            refine ⟨hacc, List.nodup_singleton _, ?_⟩
            intro a ha hb
            simp only [List.mem_singleton] at hb
            subst hb
            exact lookupA_none_not_mem _ acc hl ha
        by_cases h3 : pyTruthyNat limit = true ∧ limit.getD 0 ≤
            (match lookupA (pyStrip row.productCode) acc with
              | some langs =>
                assocUpdate (pyStrip row.productCode)
                  (assocUpdate (pyStrip row.language) row langs) acc
              | none =>
                acc ++ [(pyStrip row.productCode,
                  [(pyStrip row.language, row)])]).length
        · rw [if_pos h3]
          exact hacc2 _ rfl
        · rw [if_neg h3]
          exact ih _ (hacc2 _ rfl)

/-- With duplicate-free keys, a key determines its group. -/
theorem keys_nodup_mem_unique {α : Type} (k : String) :
    ∀ (l : List (String × α)), (l.map Prod.fst).Nodup →
      ∀ a b, (k, a) ∈ l → (k, b) ∈ l → a = b := by
  intro l
  induction l with
  | nil => intro _ a b ha; simp at ha
  | cons p rest ih =>
    intro hnd a b ha hb
    simp only [List.map_cons, List.nodup_cons] at hnd
    simp only [List.mem_cons] at ha hb
    rcases ha with ha | ha <;> rcases hb with hb | hb
    · exact congrArg Prod.snd (ha.trans hb.symm)
    · exfalso
      apply hnd.1
      have hk : p.fst = k := by rw [← ha]
      rw [hk]
      exact List.mem_map_of_mem Prod.fst hb
    · exfalso
      apply hnd.1
      have hk : p.fst = k := by rw [← hb]
      rw [hk]
      exact List.mem_map_of_mem Prod.fst ha
    · exact ih hnd.2 a b ha hb

/-- C8 (amended): a missing CSV file yields a *successful empty* result
(`[]`), not a `NotFoundError`; and group-level standardization failures
are skipped without aborting: every group that standardizes contributes
its product, and a group that fails to standardize contributes nothing. -/
theorem c8_missing_file_amended (pref : String) (rows : List BicRow)
    (limit : Option Nat) :
    bicGetProducts pref false rows limit = .ok []
    ∧ (∀ l, bicGetProducts pref true rows limit = .ok l →
        ∀ code langs, (code, langs) ∈ bicGroupRows limit rows →
          (∀ p, standardizeBicProduct pref code langs = some p → p ∈ l)
          ∧ (standardizeBicProduct pref code langs = none →
              ∀ p ∈ l, p.supplierRef ≠ code)) := by
  constructor
  · rfl
  · intro l hl code langs hmem
    have h2 : (Except.ok ((bicGroupRows limit rows).filterMap
          (fun g => standardizeBicProduct pref g.fst g.snd)) :
        Except SupplierErr (List BicProduct)) = .ok l := by
      simpa [bicGetProducts] using hl
    have hleq := Except.ok.inj h2
    constructor
    · intro p hp
      rw [← hleq]
      exact List.mem_filterMap.mpr ⟨(code, langs), hmem, hp⟩
    · intro hnone p hpl
      rw [← hleq] at hpl
      obtain ⟨g, hg, hgp⟩ := List.mem_filterMap.mp hpl
      intro href
      have hkey : g.fst = code := by
        rw [← href]
        exact (standardizeBicProduct_ref pref g.fst g.snd p hgp).symm
      have hnodup : ((bicGroupRows limit rows).map Prod.fst).Nodup := by
        unfold bicGroupRows
        exact bicGroupRows_go_keys_nodup limit rows [] (by simp)
      have hsame : g.snd = langs := by
        apply keys_nodup_mem_unique code (bicGroupRows limit rows) hnodup
        · rw [← hkey]; exact hg
        · exact hmem
      rw [hkey, hsame] at hgp
      rw [hnone] at hgp
      cases hgp

def c8RowGood : BicRow :=
  { bicRowOf "it" "Buono" "Descrizione buona" with productCode := "G" }

/-- A truncated row: the `weight` cell is Python `None`, so
standardization raises and returns `None`. -/
def c8RowBad : BicRow :=
  { bicRowOf "it" "Guasto" "Descrizione guasta" with
    productCode := "B", weight := none }

def c8Rows : List BicRow := [c8RowGood, c8RowBad]

def c8GoodProd : BicProduct :=
  { c6Prod with
    supplierRef := "G", sku := "BIC_G", name := "Buono",
    description := "Descrizione buona",
    variants := [{ supplierVariantRef := "G", sku := "BIC_G", color := "",
                   size := "", gtin := "", image := "", currentStock := 0,
                   currentPrice := none }] }

/-- C8 amended-claim witness: one good group and one truncated group —
the fetch succeeds with exactly the good product; the missing-file path
returns `.ok []`. -/
theorem c8_missing_file_amended_witness :
    bicGetProducts "it" false c8Rows none = .ok []
    ∧ bicGetProducts "it" true c8Rows none = .ok [c8GoodProd]
    ∧ c8GoodProd ∈ [c8GoodProd]
    ∧ c8GoodProd.supplierRef ≠ "B" := by
  have hgroups : bicGroupRows none c8Rows =
      [("G", [("it", c8RowGood)]), ("B", [("it", c8RowBad)])] := rfl
  have hok : bicGetProducts "it" true c8Rows none = .ok [c8GoodProd] := by
    decide
  have happ := (c8_missing_file_amended "it" c8Rows none).2 [c8GoodProd] hok
  refine ⟨(c8_missing_file_amended "it" c8Rows none).1, hok, ?_, ?_⟩
  · exact (happ "G" [("it", c8RowGood)]
      (by rw [hgroups]; exact List.mem_cons_self _ _)).1 c8GoodProd (by decide)
  · exact (happ "B" [("it", c8RowBad)]
      (by rw [hgroups]; exact List.mem_cons_of_mem _ (List.mem_cons_self _ _))).2
      (by decide) c8GoodProd (List.mem_cons_self _ _)

/-! ## C9: unspecified maximum quantity in price tiers -/

def c9MidoRaw : MidoRawPrice :=
  { sku := some "S1", price := some 10, scale := none, validUntil := none }

/-- C9 counterexample: the claim says every supplier's price mapping
normalizes an unspecified maximum quantity to a large sentinel and never
leaves it null.  `DataMapper._map_midocean_prices` sets
`max_quantity = None` on its (only) tier. -/
theorem c9_max_quantity_counterexample :
    (mapMidoceanPrices c9MidoRaw).map MappedPrice.maxQuantity = [none] := by
  rfl

/-- C9 (amended): only the BIC parser-level extraction applies the
`999999` sentinel — a row with no truthy `maxQty.i` cell yields tiers
whose max quantity is exactly `999999`, and BIC tiers always carry an
integer max — while the Midocean and Makito price mappers leave
`max_quantity = None` on every tier. -/
theorem c9_max_quantity_amended :
    (∀ (data : BicRow),
        (∀ i, truthyOptInt (bicSafeInt (data.maxQty i)) = false) →
        ∀ t ∈ bicExtractPrices data, t.maxQuantity = 999999)
    ∧ (∀ (raw : MidoRawPrice), ∀ t ∈ mapMidoceanPrices raw,
        t.maxQuantity = none)
    ∧ (∀ (raw : MakitoPriceData), ∀ t ∈ mapMakitoPrices raw,
        t.maxQuantity = none) := by
  refine ⟨?_, ?_, ?_⟩
  · intro data hmax t ht
    unfold bicExtractPrices at ht
    obtain ⟨i, _, hi⟩ := List.mem_filterMap.mp ht
    by_cases hc : truthyOptRat (bicSafeFloat (data.price i)) = true ∧
        truthyOptInt (bicSafeInt (data.minQty i)) = true
    · rw [if_pos hc] at hi
      cases hi
      simp only
      rw [hmax i]
      simp
    · rw [if_neg hc] at hi
      cases hi
  · intro raw t ht
    unfold mapMidoceanPrices at ht
    rcases List.mem_cons.mp ht with h | h
    · rw [h]
    · obtain ⟨sc, _, hsc⟩ := List.mem_map.mp h
      rw [← hsc]
  · intro raw t ht
    unfold mapMakitoPrices at ht
    obtain ⟨pr, _, hpr⟩ := List.mem_filterMap.mp ht
    by_cases hc : 0 < pr.price
    · rw [if_pos hc] at hpr
      cases hpr
      rfl
    · rw [if_neg hc] at hpr
      cases hpr

/-- A BIC row with one complete price column and no max-quantity cells. -/
def c9BicRow : BicRow :=
  { bicRowOf "it" "Penna" "Descrizione" with
    minQty := fun i => if i = 1 then "1" else "",
    price := fun i => if i = 1 then "2" else "" }

def c9Tier : BicPriceTier :=
  { minQuantity := 1, maxQuantity := 999999, price := 2, currency := "EUR" }

/-- C9 amended-claim witness: the concrete BIC row yields a tier whose
max quantity is the `999999` sentinel, and a concrete Midocean record
maps to a tier with `max_quantity = None`. -/
theorem c9_max_quantity_amended_witness :
    c9Tier ∈ bicExtractPrices c9BicRow
    ∧ c9Tier.maxQuantity = 999999
    ∧ (mapMidoceanPrices c9MidoRaw).map MappedPrice.maxQuantity = [none] :=
  ⟨by decide,
   (c9_max_quantity_amended).1 c9BicRow (fun i => rfl) c9Tier (by decide),
   rfl⟩

/-! ## C1: per-record error isolation in `_sync_products` -/

/-- The per-record pipeline (`map_product_data` + upserts + enhancements)
appends sync errors but never removes one; this is the append-only
contract of the `SyncError` table. -/
def StepKeepsErrors {α : Type}
    (step : DB → α → Except String (DB × Bool)) : Prop :=
  ∀ db raw db2 c, step db raw = .ok (db2, c) →
    ∀ e ∈ db.syncErrors, e ∈ db2.syncErrors

/-- One step of the product loop never drops recorded sync errors and
never decreases the error counter. -/
theorem syncProductsStep_mono {α : Type} (refOf : α → String)
    (step : DB → α → Except String (DB × Bool))
    (hkeep : StepKeepsErrors step) (sup : Supplier)
    (st : ProdSyncState) (raw : α) :
    (∀ e ∈ st.db.syncErrors,
        e ∈ (syncProductsStep refOf step sup st raw).db.syncErrors)
    ∧ st.stats.productsErrors ≤
        (syncProductsStep refOf step sup st raw).stats.productsErrors := by
  unfold syncProductsStep
  cases h : step st.db raw with
  | ok pr =>
    cases pr with
    | mk db2 created =>
      cases created with
      | false =>
        exact ⟨fun e he => hkeep st.db raw db2 false h e he, le_refl _⟩
      | true =>
        exact ⟨fun e he => hkeep st.db raw db2 true h e he, le_refl _⟩
  | error e =>
    constructor
    · intro x hx
      simp only
      exact List.mem_append_left _ hx
    · simp

/-- Sync errors and the error counter are monotone along the product
loop. -/
theorem syncProductsLoop_mono {α : Type} (refOf : α → String)
    (step : DB → α → Except String (DB × Bool))
    (hkeep : StepKeepsErrors step) (sup : Supplier)
    (raws : List α) :
    ∀ st : ProdSyncState,
      (∀ e ∈ st.db.syncErrors,
          e ∈ (syncProductsLoop refOf step sup st raws).db.syncErrors)
      ∧ st.stats.productsErrors ≤
          (syncProductsLoop refOf step sup st raws).stats.productsErrors := by
  induction raws with
  | nil => intro st; exact ⟨fun e he => he, le_refl _⟩
  | cons r rest ih =>
    intro st
    have hstep := syncProductsStep_mono refOf step hkeep sup st r
    have hrest := ih (syncProductsStep refOf step sup st r)
    exact ⟨fun e he => hrest.1 e (hstep.1 e he),
           le_trans hstep.2 hrest.2⟩

/-- Every record contributes exactly one unit to
created + updated + errors: the run is never aborted. -/
theorem syncProductsLoop_total {α : Type} (refOf : α → String)
    (step : DB → α → Except String (DB × Bool)) (sup : Supplier)
    (raws : List α) :
    ∀ st : ProdSyncState,
      (syncProductsLoop refOf step sup st raws).stats.productsCreated +
        (syncProductsLoop refOf step sup st raws).stats.productsUpdated +
        (syncProductsLoop refOf step sup st raws).stats.productsErrors =
      st.stats.productsCreated + st.stats.productsUpdated +
        st.stats.productsErrors + raws.length := by
  induction raws with
  | nil => intro st; simp [syncProductsLoop]
  | cons r rest ih =>
    intro st
    have h1 : syncProductsLoop refOf step sup st (r :: rest) =
        syncProductsLoop refOf step sup
          (syncProductsStep refOf step sup st r) rest := rfl
    rw [h1, ih]
    have h2 : (syncProductsStep refOf step sup st r).stats.productsCreated +
        (syncProductsStep refOf step sup st r).stats.productsUpdated +
        (syncProductsStep refOf step sup st r).stats.productsErrors =
        st.stats.productsCreated + st.stats.productsUpdated +
          st.stats.productsErrors + 1 := by
      unfold syncProductsStep
      cases h : step st.db r with
      | ok pr =>
        cases pr with
        | mk db2 created => cases created <;> simp <;> omega
      | error e => simp; omega
    rw [h2]
    simp [List.length_cons]
    omega

/-- C1: if mapping or persisting the record at position `i` raises, a
`SyncError` row carrying that record's `supplier_ref` is appended, the
error counter advances, and the run is not aborted — every record of the
list still contributes one unit to the created/updated/error counters. -/
theorem c1_record_failure_isolated {α : Type} (refOf : α → String)
    (step : DB → α → Except String (DB × Bool))
    (hkeep : StepKeepsErrors step) (sup : Supplier)
    (st : ProdSyncState) (raws : List α) (i : Nat) (h : i < raws.length)
    (hfail : ∃ msg, step
        (syncProductsLoop refOf step sup st (raws.take i)).db
        raws[i] = .error msg) :
    (∃ e ∈ (syncProductsLoop refOf step sup st raws).db.syncErrors,
        e.objectId = refOf raws[i] ∧ e.errorType = "PARSING_ERROR"
        ∧ e.severity = "MEDIUM" ∧ e.supplierId = sup.id)
    ∧ st.stats.productsErrors + 1 ≤
        (syncProductsLoop refOf step sup st raws).stats.productsErrors
    ∧ (syncProductsLoop refOf step sup st raws).stats.productsCreated +
        (syncProductsLoop refOf step sup st raws).stats.productsUpdated +
        (syncProductsLoop refOf step sup st raws).stats.productsErrors =
      st.stats.productsCreated + st.stats.productsUpdated +
        st.stats.productsErrors + raws.length := by
  refine ⟨?_, ?_, syncProductsLoop_total refOf step sup raws st⟩
  · induction raws generalizing st i with
    | nil => simp at h
    | cons r rest ih =>
      cases i with
      | zero =>
        obtain ⟨msg, hmsg⟩ := hfail
        simp only [List.take_zero, syncProductsLoop, List.foldl_nil,
          List.getElem_cons_zero] at hmsg
        have hstep : (syncProductsStep refOf step sup st r).db.syncErrors =
            st.db.syncErrors ++
              [{ supplierId := sup.id, errorType := "PARSING_ERROR",
                 severity := "MEDIUM", errorMessage := msg,
                 objectType := "product", objectId := refOf r }] := by
          unfold syncProductsStep
          rw [hmsg]
        have hrest := (syncProductsLoop_mono refOf step hkeep sup rest
          (syncProductsStep refOf step sup st r)).1
        have hm : ({ supplierId := sup.id, errorType := "PARSING_ERROR",
                     severity := "MEDIUM", errorMessage := msg,
                     objectType := "product", objectId := refOf r } :
                   SyncErrorRow) ∈
            (syncProductsStep refOf step sup st r).db.syncErrors := by
          rw [hstep]
          exact List.mem_append_right _ (List.mem_singleton_self _)
        exact ⟨_, hrest _ hm, rfl, rfl, rfl, rfl⟩
      | succ j =>
        have hj : j < rest.length := by
          simpa using h
        have hfail2 : ∃ msg, step
            (syncProductsLoop refOf step sup
              (syncProductsStep refOf step sup st r) (rest.take j)).db
            rest[j] = .error msg := by
          obtain ⟨msg, hmsg⟩ := hfail
          refine ⟨msg, ?_⟩
          simpa [syncProductsLoop, List.take_succ_cons,
            List.getElem_cons_succ] using hmsg
        simpa [syncProductsLoop] using
          ih (syncProductsStep refOf step sup st r) j hj hfail2
  · induction raws generalizing st i with
    | nil => simp at h
    | cons r rest ih =>
      cases i with
      | zero =>
        obtain ⟨msg, hmsg⟩ := hfail
        simp only [List.take_zero, syncProductsLoop, List.foldl_nil,
          List.getElem_cons_zero] at hmsg
        have hstep : (syncProductsStep refOf step sup st r).stats.productsErrors =
            st.stats.productsErrors + 1 := by
          unfold syncProductsStep
          rw [hmsg]
        have hrest := (syncProductsLoop_mono refOf step hkeep sup rest
          (syncProductsStep refOf step sup st r)).2
        have : syncProductsLoop refOf step sup st (r :: rest) =
            syncProductsLoop refOf step sup
              (syncProductsStep refOf step sup st r) rest := rfl
        rw [this]
        omega
      | succ j =>
        have hj : j < rest.length := by
          simpa using h
        have hfail2 : ∃ msg, step
            (syncProductsLoop refOf step sup
              (syncProductsStep refOf step sup st r) (rest.take j)).db
            rest[j] = .error msg := by
          obtain ⟨msg, hmsg⟩ := hfail
          refine ⟨msg, ?_⟩
          simpa [syncProductsLoop, List.take_succ_cons,
            List.getElem_cons_succ] using hmsg
        have hmono := (syncProductsStep_mono refOf step hkeep sup st r).2
        have := ih (syncProductsStep refOf step sup st r) j hj hfail2
        have heq : syncProductsLoop refOf step sup st (r :: rest) =
            syncProductsLoop refOf step sup
              (syncProductsStep refOf step sup st r) rest := rfl
        rw [heq]
        omega

/-- The initial state of one supplier's product sync. -/
def initialProdSyncState (db : DB) : ProdSyncState :=
  { db := db, stats := SyncStats.zero, createdCount := 0,
    updatedCount := 0, errorCount := 0 }

def c1Sup : Supplier :=
  { id := 7, code := "MKTO", name := "MKTO", supplierType := "MAKITO",
    isActive := true }

/-- A per-record pipeline for the C1 witness: the record `"B"` raises,
all others persist as created. -/
def c1Step : DB → String → Except String (DB × Bool) :=
  fun db s => if s = "B" then .error "boom" else .ok (db, true)

theorem c1Step_keeps_errors : StepKeepsErrors c1Step := by
  intro db raw db2 c hok e he
  unfold c1Step at hok
  by_cases hb : raw = "B"
  · rw [if_pos hb] at hok
    cases hok
  · rw [if_neg hb] at hok
    cases hok
    exact he

/-- C1 witness: in the run over `["A", "B", "C"]` where record `"B"`
raises, a `PARSING_ERROR` `SyncError` carrying `"B"` is recorded, the
error counter advances, and all three records are accounted for. -/
theorem c1_record_failure_isolated_witness :
    (∃ e ∈ (syncProductsLoop id c1Step c1Sup
        (initialProdSyncState emptyDB) ["A", "B", "C"]).db.syncErrors,
      e.objectId = id "B" ∧ e.errorType = "PARSING_ERROR"
      ∧ e.severity = "MEDIUM" ∧ e.supplierId = c1Sup.id)
    ∧ (initialProdSyncState emptyDB).stats.productsErrors + 1 ≤
        (syncProductsLoop id c1Step c1Sup
          (initialProdSyncState emptyDB) ["A", "B", "C"]).stats.productsErrors
    ∧ (syncProductsLoop id c1Step c1Sup
          (initialProdSyncState emptyDB) ["A", "B", "C"]).stats.productsCreated +
        (syncProductsLoop id c1Step c1Sup
          (initialProdSyncState emptyDB) ["A", "B", "C"]).stats.productsUpdated +
        (syncProductsLoop id c1Step c1Sup
          (initialProdSyncState emptyDB) ["A", "B", "C"]).stats.productsErrors =
      (initialProdSyncState emptyDB).stats.productsCreated +
        (initialProdSyncState emptyDB).stats.productsUpdated +
        (initialProdSyncState emptyDB).stats.productsErrors + 3 :=
  c1_record_failure_isolated id c1Step c1Step_keeps_errors c1Sup
    (initialProdSyncState emptyDB)
    ["A", "B", "C"] 1 (by decide) ⟨"boom", by decide⟩

/-! ## C10: stock records with unresolvable SKUs -/

/-- The stock rows of one variant. -/
def stockRowsFor (db : DB) (vid : Nat) : List StockRow :=
  db.stocks.filter (fun s => s.variantId = vid)

/-- The variant ids a stock batch resolves to (SKU lookup against the
given store; `_sync_stock` never alters variants, so this is stable over
the run). -/
def resolvedStockIds (sup : Supplier) (db : DB) (raws : List RawStock) :
    List Nat :=
  raws.filterMap (fun r =>
    match mapStockData sup r with
    | .error _ => none
    | .ok ms => (findVariantBySku db ms.sku sup).map VariantRow.id)

/-- `upsertStock` touches only the stock table. -/
theorem upsertStock_tables (db : DB) (vid : Nat) (ms : MappedStock) :
    (upsertStock db vid ms).variants = db.variants
    ∧ (upsertStock db vid ms).products = db.products
    ∧ (upsertStock db vid ms).prices = db.prices
    ∧ (upsertStock db vid ms).syncErrors = db.syncErrors := by
  unfold upsertStock
  split <;> exact ⟨rfl, rfl, rfl, rfl⟩

/-- Variant resolution only looks at the variant and product tables. -/
theorem findVariantBySku_congr (db1 db2 : DB)
    (h1 : db1.variants = db2.variants) (h2 : db1.products = db2.products)
    (sku : Option String) (sup : Supplier) :
    findVariantBySku db1 sku sup = findVariantBySku db2 sku sup := by
  unfold findVariantBySku
  cases sku with
  | none => rfl
  | some s => rw [h1, h2]

/-- Overwriting the rows of one variant id leaves the rows filtered on a
different id unchanged. -/
theorem filter_vid_map_overwrite (l : List StockRow) (wid vid : Nat)
    (new : StockRow) (hnew : new.variantId = wid) (h : vid ≠ wid) :
    (l.map (fun s => if s.variantId = wid then new else s)).filter
      (fun s => s.variantId = vid) =
    l.filter (fun s => s.variantId = vid) := by
  induction l with
  | nil => rfl
  | cons s rest ih =>
    simp only [List.map_cons, List.filter_cons]
    by_cases hs : s.variantId = wid
    · have hnv : ¬ (new.variantId = vid) := by
        rw [hnew]; exact fun hc => h hc.symm
      have hsv : ¬ (s.variantId = vid) := by
        rw [hs]; exact fun hc => h hc.symm
      simp [hs, hnv, hsv, ih, h, Ne.symm h]
    · by_cases hsv : s.variantId = vid
      · simp [hs, hsv, ih, h, Ne.symm h]
      · simp [hs, hsv, ih, h, Ne.symm h]

/-- Overwriting one variant's stock row leaves every other variant's
stock rows unchanged. -/
theorem upsertStock_frame (db : DB) (wid vid : Nat) (ms : MappedStock)
    (h : vid ≠ wid) :
    stockRowsFor (upsertStock db wid ms) vid = stockRowsFor db vid := by
  unfold upsertStock stockRowsFor
  by_cases hex : db.stocks.any (fun s => s.variantId = wid)
  · rw [if_pos hex]
    exact filter_vid_map_overwrite db.stocks wid vid _ rfl h
  · rw [if_neg hex]
    simp only [List.filter_append, List.filter_cons, List.filter_nil]
    simp [Ne.symm h]

/-- The fold inside `SyncService._sync_stock`, relative to a reference
store `db0` with the same variant and product tables: variants, products,
prices and sync errors never change, the counter counts exactly the
resolvable records, and the stock rows of every unresolved variant id are
untouched. -/
theorem syncStock_foldl_spec (sup : Supplier) (db0 : DB)
    (raws : List RawStock) :
    ∀ (db : DB) (n : Nat), db.variants = db0.variants →
      db.products = db0.products →
      (raws.foldl (syncStockOne sup) (db, n)).fst.variants = db.variants
      ∧ (raws.foldl (syncStockOne sup) (db, n)).fst.products = db.products
      ∧ (raws.foldl (syncStockOne sup) (db, n)).fst.prices = db.prices
      ∧ (raws.foldl (syncStockOne sup) (db, n)).fst.syncErrors =
          db.syncErrors
      ∧ (raws.foldl (syncStockOne sup) (db, n)).snd = n +
          (raws.filter (fun r =>
            match mapStockData sup r with
            | .error _ => false
            | .ok ms => (findVariantBySku db0 ms.sku sup).isSome)).length
      ∧ (∀ vid, vid ∉ resolvedStockIds sup db0 raws →
          stockRowsFor (raws.foldl (syncStockOne sup) (db, n)).fst vid =
            stockRowsFor db vid) := by
  induction raws with
  | nil =>
    intro db n _ _
    refine ⟨rfl, rfl, rfl, rfl, by simp, fun vid _ => rfl⟩
  | cons r rest ih =>
    intro db n h1 h2
    have hone : rest.foldl (syncStockOne sup) (syncStockOne sup (db, n) r) =
        (r :: rest).foldl (syncStockOne sup) (db, n) := rfl
    cases hm : mapStockData sup r with
    | error e =>
      have hstep : syncStockOne sup (db, n) r = (db, n) := by
        simp only [syncStockOne, hm]
      have := ih db n h1 h2
      rw [← hone, hstep]
      refine ⟨this.1, this.2.1, this.2.2.1, this.2.2.2.1, ?_, ?_⟩
      · rw [this.2.2.2.2.1]
        simp [List.filter_cons, hm]
      · intro vid hvid
        apply this.2.2.2.2.2
        intro hc
        apply hvid
        unfold resolvedStockIds at hc ⊢
        simp only [List.filterMap_cons, hm]
        exact hc
    | ok ms =>
      have hfind : findVariantBySku db ms.sku sup =
          findVariantBySku db0 ms.sku sup :=
        findVariantBySku_congr db db0 h1 h2 ms.sku sup
      cases hf : findVariantBySku db ms.sku sup with
      | none =>
        have hstep : syncStockOne sup (db, n) r = (db, n) := by
          simp only [syncStockOne, hm, hf]
        have := ih db n h1 h2
        rw [← hone, hstep]
        refine ⟨this.1, this.2.1, this.2.2.1, this.2.2.2.1, ?_, ?_⟩
        · rw [this.2.2.2.2.1]
          have hnone : (findVariantBySku db0 ms.sku sup).isSome = false := by
            rw [← hfind, hf]; rfl
          simp [List.filter_cons, hm, hnone]
        · intro vid hvid
          apply this.2.2.2.2.2
          intro hc
          apply hvid
          unfold resolvedStockIds at hc ⊢
          simp only [List.filterMap_cons, hm, ← hfind, hf]
          exact hc
      | some v =>
        have hstep : syncStockOne sup (db, n) r =
            (upsertStock db v.id ms, n + 1) := by
          simp only [syncStockOne, hm, hf]
        have htab := upsertStock_tables db v.id ms
        have := ih (upsertStock db v.id ms) (n + 1)
          (htab.1.trans h1) (htab.2.1.trans h2)
        rw [← hone, hstep]
        refine ⟨this.1.trans htab.1, this.2.1.trans htab.2.1,
                this.2.2.1.trans htab.2.2.1,
                this.2.2.2.1.trans htab.2.2.2, ?_, ?_⟩
        · rw [this.2.2.2.2.1]
          have hsome : (findVariantBySku db0 ms.sku sup).isSome = true := by
            rw [← hfind, hf]; rfl
          simp [List.filter_cons, hm, hsome]
          omega
        · intro vid hvid
          have hres : resolvedStockIds sup db0 (r :: rest) =
              v.id :: resolvedStockIds sup db0 rest := by
            unfold resolvedStockIds
            simp only [List.filterMap_cons, hm, ← hfind, hf]
            rfl
          rw [hres] at hvid
          have hvid1 : vid ≠ v.id := fun hc => hvid (hc ▸ List.mem_cons_self _ _)
          have hvid2 : vid ∉ resolvedStockIds sup db0 rest :=
            fun hc => hvid (List.mem_cons_of_mem _ hc)
          rw [this.2.2.2.2.2 vid hvid2]
          exact upsertStock_frame db v.id vid ms hvid1

/-- C10: during stock synchronization a record whose SKU does not resolve
to a variant of the supplier is skipped silently: the variant, product,
price and sync-error tables never change at all, the updated counter
counts exactly the resolvable records, and the stock rows of every
variant id outside the resolved set are untouched. -/
theorem c10_unresolvable_sku_frame (sup : Supplier) (db : DB)
    (raws : List RawStock) :
    (syncStock sup db raws).fst.variants = db.variants
    ∧ (syncStock sup db raws).fst.products = db.products
    ∧ (syncStock sup db raws).fst.prices = db.prices
    ∧ (syncStock sup db raws).fst.syncErrors = db.syncErrors
    ∧ (syncStock sup db raws).snd = (raws.filter (fun r =>
        match mapStockData sup r with
        | .error _ => false
        | .ok ms => (findVariantBySku db ms.sku sup).isSome)).length
    ∧ (∀ vid, vid ∉ resolvedStockIds sup db raws →
        stockRowsFor (syncStock sup db raws).fst vid =
          stockRowsFor db vid) := by
  have h := syncStock_foldl_spec sup db raws db 0 rfl rfl
  exact ⟨h.1, h.2.1, h.2.2.1, h.2.2.2.1, by simpa using h.2.2.2.2.1,
         h.2.2.2.2.2⟩

def c10Sup : Supplier :=
  { id := 5, code := "MKTO", name := "MKTO", supplierType := "MAKITO",
    isActive := true }

def c10DB : DB :=
  { products := [{ id := 1, supplierId := 5, supplierRef := "R",
                   sku := "MAK_R" }],
    variants := [{ id := 10, productId := 1, supplierVariantRef := "r1",
                   sku := "X1", color := "", colorCode := "", size := "",
                   gtin := "", image := "" }],
    stocks := [], prices := [], syncErrors := [],
    nextVariantId := 11, nextPriceId := 0 }

def c10RawOf (sku : String) (qty : Int) : RawStock :=
  { sku := some sku, supplierRef := some "R", color := none, size := none,
    stockQuantity := some qty, availability := some "available",
    qty := none, firstArrivalDate := none, firstArrivalQty := none }

def c10Raws : List RawStock := [c10RawOf "X1" 5, c10RawOf "NOPE" 3]

/-- C10 witness: the `"NOPE"` record resolves to no variant and changes
nothing; only the `"X1"` record advances the counter. -/
theorem c10_unresolvable_sku_frame_witness :
    (99 ∉ resolvedStockIds c10Sup c10DB c10Raws)
    ∧ stockRowsFor (syncStock c10Sup c10DB c10Raws).fst 99 =
        stockRowsFor c10DB 99
    ∧ (syncStock c10Sup c10DB c10Raws).fst.syncErrors = c10DB.syncErrors
    ∧ (syncStock c10Sup c10DB c10Raws).snd = 1 :=
  ⟨by decide,
   (c10_unresolvable_sku_frame c10Sup c10DB c10Raws).2.2.2.2.2 99 (by decide),
   (c10_unresolvable_sku_frame c10Sup c10DB c10Raws).2.2.2.1,
   by decide⟩

/-! ## C4: price-tier deactivation and the active-set invariant -/

/-- The "is an active row of variant `vid`" test. -/
def isActiveFor (vid : Nat) (r : PriceRow) : Bool :=
  decide (r.variantId = vid) && r.isActive

/-- Number of active price rows of one variant. -/
def activePriceCount (prices : List PriceRow) (vid : Nat) : Nat :=
  (prices.filter (isActiveFor vid)).length

/-- The variant ids a mapped tier list resolves to. -/
def tierTargets (db0 : DB) (sup : Supplier) (tiers : List MappedPrice) :
    List Nat :=
  tiers.filterMap (fun mp =>
    (findVariantBySku db0 mp.sku sup).map VariantRow.id)

/-- The variant ids an entire raw price batch resolves to. -/
def priceTargets (db0 : DB) (sup : Supplier) (raws : List RawPrice) :
    List Nat :=
  raws.flatMap (fun raw =>
    match mapPriceData sup raw with
    | .error _ => []
    | .ok mapped => tierTargets db0 sup mapped)

/-- After deactivation a variant has no active rows at all. -/
theorem deactivate_filter_self (l : List PriceRow) (w : Nat) :
    (deactivatePricesOf w l).filter (isActiveFor w) = [] := by
  induction l with
  | nil => rfl
  | cons r rest ih =>
    simp only [deactivatePricesOf, List.map_cons, List.filter_cons] at ih ⊢
    by_cases hw : r.variantId = w
    · rw [if_pos hw]
      have hfr : isActiveFor w { r with isActive := false } = false := by
        simp [isActiveFor]
      rw [hfr]
      simpa using ih
    · rw [if_neg hw]
      have hfr : isActiveFor w r = false := by
        simp [isActiveFor, hw]
      rw [hfr]
      simpa using ih

/-- Deactivating one variant leaves the active rows of every other
variant untouched. -/
theorem deactivate_filter_other (l : List PriceRow) (w vid : Nat)
    (h : vid ≠ w) :
    (deactivatePricesOf w l).filter (isActiveFor vid) =
      l.filter (isActiveFor vid) := by
  induction l with
  | nil => rfl
  | cons r rest ih =>
    simp only [deactivatePricesOf, List.map_cons, List.filter_cons] at ih ⊢
    by_cases hw : r.variantId = w
    · rw [if_pos hw]
      have h1 : isActiveFor vid { r with isActive := false } = false := by
        simp [isActiveFor]
      have h2 : isActiveFor vid r = false := by
        have hne : ¬ (r.variantId = vid) := fun hc => h (hc.symm.trans hw)
        simp [isActiveFor, hne]
      rw [h1, h2]
      simpa using ih
    · rw [if_neg hw]
      cases hfr : isActiveFor vid r with
      | false => simp [ih]
      | true => simp [ih]

/-- `applyMappedPrice` touches only the price table and never shrinks the
id counter. -/
theorem applyMappedPrice_tables (sup : Supplier) (st : DB × Nat)
    (mp : MappedPrice) :
    (applyMappedPrice sup st mp).fst.variants = st.fst.variants
    ∧ (applyMappedPrice sup st mp).fst.products = st.fst.products
    ∧ (applyMappedPrice sup st mp).fst.stocks = st.fst.stocks
    ∧ (applyMappedPrice sup st mp).fst.syncErrors = st.fst.syncErrors
    ∧ st.fst.nextPriceId ≤ (applyMappedPrice sup st mp).fst.nextPriceId := by
  cases st with
  | mk db n =>
    cases hf : findVariantBySku db mp.sku sup with
    | none => simp [applyMappedPrice, hf]
    | some v => simp [applyMappedPrice, hf]

/-- The ≤1-active-per-variant invariant is preserved by one tier
application. -/
theorem applyMappedPrice_activeLe (sup : Supplier) (st : DB × Nat)
    (mp : MappedPrice)
    (hinv : ∀ vid, activePriceCount st.fst.prices vid ≤ 1) :
    ∀ vid, activePriceCount (applyMappedPrice sup st mp).fst.prices vid ≤ 1 := by
  intro vid
  cases st with
  | mk db n =>
    cases hf : findVariantBySku db mp.sku sup with
    | none =>
      simp only [applyMappedPrice, hf]
      exact hinv vid
    | some v =>
      simp only [applyMappedPrice, hf]
      simp only [activePriceCount, List.filter_append, List.length_append]
      by_cases hv : vid = v.id
      · subst hv
        rw [deactivate_filter_self db.prices v.id]
        simp [isActiveFor]
      · rw [deactivate_filter_other db.prices v.id vid hv]
        have hnew : isActiveFor vid
            ({ id := db.nextPriceId, variantId := v.id, price := mp.price,
               currency := mp.currency, minQuantity := mp.minQuantity,
               maxQuantity := mp.maxQuantity, validUntil := mp.validUntil,
               isActive := true } : PriceRow) = false := by
          simp [isActiveFor]
          exact fun hc => absurd hc.symm hv
        simp only [List.filter_cons, List.filter_nil, hnew]
        have h2 := hinv vid
        unfold activePriceCount at h2
        simpa using h2

/-- Once every old row of a variant is inactive, further tier
applications keep it so (rows are only deactivated, and inserted rows
carry fresh ids). -/
theorem applyList_keeps_inactive (sup : Supplier)
    (tiers : List MappedPrice) :
    ∀ (st : DB × Nat) (vid bound : Nat), bound ≤ st.fst.nextPriceId →
      (∀ r ∈ st.fst.prices, r.variantId = vid → r.id < bound →
        r.isActive = false) →
      ∀ r ∈ (tiers.foldl (applyMappedPrice sup) st).fst.prices,
        r.variantId = vid → r.id < bound → r.isActive = false := by
  induction tiers with
  | nil => intro st vid bound _ hall; exact hall
  | cons mp rest ih =>
    intro st vid bound hb hall
    cases st with
    | mk db n =>
      have hstep : ∀ r ∈ (applyMappedPrice sup (db, n) mp).fst.prices,
          r.variantId = vid → r.id < bound → r.isActive = false := by
        cases hf : findVariantBySku db mp.sku sup with
        | none =>
          simp only [applyMappedPrice, hf]
          exact hall
        | some v =>
          simp only [applyMappedPrice, hf]
          intro r hr hvid hid
          simp only [List.mem_append] at hr
          rcases hr with hr | hr
          · unfold deactivatePricesOf at hr
            obtain ⟨r0, hr0, hr0eq⟩ := List.mem_map.mp hr
            by_cases hw : r0.variantId = v.id
            · rw [← hr0eq]
              simp [hw]
            · rw [if_neg hw] at hr0eq
              rw [← hr0eq] at hvid hid ⊢
              exact hall r0 hr0 hvid hid
          · simp only [List.mem_singleton] at hr
            subst hr
            simp only at hid
            have hb1 : bound ≤ db.nextPriceId := hb
            omega
      have hb2 : bound ≤ (applyMappedPrice sup (db, n) mp).fst.nextPriceId :=
        le_trans hb (applyMappedPrice_tables sup (db, n) mp).2.2.2.2
      exact ih (applyMappedPrice sup (db, n) mp) vid bound hb2 hstep

/-- Applying a tier list blankets every targeted variant: all of its old
rows (ids below the pre-existing id bound) end up inactive. -/
theorem applyList_blankets (sup : Supplier) (db0 : DB)
    (tiers : List MappedPrice) :
    ∀ (st : DB × Nat) (vid bound : Nat),
      st.fst.variants = db0.variants → st.fst.products = db0.products →
      bound ≤ st.fst.nextPriceId →
      vid ∈ tierTargets db0 sup tiers →
      ∀ r ∈ (tiers.foldl (applyMappedPrice sup) st).fst.prices,
        r.variantId = vid → r.id < bound → r.isActive = false := by
  induction tiers with
  | nil => intro st vid bound _ _ _ hmem; simp [tierTargets] at hmem
  | cons mp rest ih =>
    intro st vid bound h1 h2 hb hmem
    cases st with
    | mk db n =>
      have hfind : findVariantBySku db mp.sku sup =
          findVariantBySku db0 mp.sku sup :=
        findVariantBySku_congr db db0 h1 h2 mp.sku sup
      have htab := applyMappedPrice_tables sup (db, n) mp
      have h1s : (applyMappedPrice sup (db, n) mp).fst.variants =
          db0.variants := htab.1.trans h1
      have h2s : (applyMappedPrice sup (db, n) mp).fst.products =
          db0.products := htab.2.1.trans h2
      have hbs : bound ≤ (applyMappedPrice sup (db, n) mp).fst.nextPriceId :=
        le_trans hb htab.2.2.2.2
      cases hf0 : findVariantBySku db0 mp.sku sup with
      | none =>
        have htt : tierTargets db0 sup (mp :: rest) =
            tierTargets db0 sup rest := by
          simp [tierTargets, List.filterMap_cons, hf0]
        rw [htt] at hmem
        exact ih (applyMappedPrice sup (db, n) mp) vid bound h1s h2s hbs hmem
      | some w =>
        have htt : tierTargets db0 sup (mp :: rest) =
            w.id :: tierTargets db0 sup rest := by
          simp [tierTargets, List.filterMap_cons, hf0]
        rw [htt] at hmem
        rcases List.mem_cons.mp hmem with hmem | hmem
        · subst hmem
          have hblank : ∀ r ∈ (applyMappedPrice sup (db, n) mp).fst.prices,
              r.variantId = w.id → r.id < bound → r.isActive = false := by
            have hfw : findVariantBySku db mp.sku sup = some w :=
              hfind.trans hf0
            simp only [applyMappedPrice, hfw]
            intro r hr hvid hid
            simp only [List.mem_append] at hr
            rcases hr with hr | hr
            · unfold deactivatePricesOf at hr
              obtain ⟨r0, _, hr0eq⟩ := List.mem_map.mp hr
              by_cases hw : r0.variantId = w.id
              · rw [← hr0eq]; simp [hw]
              · rw [if_neg hw] at hr0eq
                rw [← hr0eq] at hvid
                exact absurd hvid hw
            · simp only [List.mem_singleton] at hr
              subst hr
              simp only at hid
              have hb1 : bound ≤ db.nextPriceId := hb
              omega
          exact applyList_keeps_inactive sup rest
            (applyMappedPrice sup (db, n) mp) w.id bound hbs hblank
        · exact ih (applyMappedPrice sup (db, n) mp) vid bound h1s h2s hbs hmem

/-- Tier folds touch only the price table and keep the id counter
monotone. -/
theorem applyList_tables (sup : Supplier) (tiers : List MappedPrice) :
    ∀ st : DB × Nat,
      (tiers.foldl (applyMappedPrice sup) st).fst.variants = st.fst.variants
      ∧ (tiers.foldl (applyMappedPrice sup) st).fst.products = st.fst.products
      ∧ st.fst.nextPriceId ≤
          (tiers.foldl (applyMappedPrice sup) st).fst.nextPriceId := by
  induction tiers with
  | nil => intro st; exact ⟨rfl, rfl, le_refl _⟩
  | cons mp rest ih =>
    intro st
    have h1 := applyMappedPrice_tables sup st mp
    have h2 := ih (applyMappedPrice sup st mp)
    exact ⟨h2.1.trans h1.1, h2.2.1.trans h1.2.1,
           le_trans h1.2.2.2.2 h2.2.2⟩

theorem applyList_activeLe (sup : Supplier) (tiers : List MappedPrice) :
    ∀ st : DB × Nat, (∀ vid, activePriceCount st.fst.prices vid ≤ 1) →
      ∀ vid, activePriceCount
        ((tiers.foldl (applyMappedPrice sup) st)).fst.prices vid ≤ 1 := by
  induction tiers with
  | nil => intro st h; exact h
  | cons mp rest ih =>
    intro st h
    exact ih (applyMappedPrice sup st mp)
      (applyMappedPrice_activeLe sup st mp h)

/-- `syncPricesOne` tables/counter facts, lifted over the mapper
dispatch. -/
theorem syncPricesOne_tables (sup : Supplier) (st : DB × Nat)
    (raw : RawPrice) :
    (syncPricesOne sup st raw).fst.variants = st.fst.variants
    ∧ (syncPricesOne sup st raw).fst.products = st.fst.products
    ∧ st.fst.nextPriceId ≤ (syncPricesOne sup st raw).fst.nextPriceId := by
  cases hm : mapPriceData sup raw with
  | error e => simp [syncPricesOne, hm]
  | ok mapped =>
    simp only [syncPricesOne, hm]
    exact applyList_tables sup mapped st

theorem syncPricesLoop_activeLe (sup : Supplier) (raws : List RawPrice) :
    ∀ st : DB × Nat, (∀ vid, activePriceCount st.fst.prices vid ≤ 1) →
      ∀ vid, activePriceCount
        (raws.foldl (syncPricesOne sup) st).fst.prices vid ≤ 1 := by
  induction raws with
  | nil => intro st h; exact h
  | cons raw rest ih =>
    intro st h
    refine ih (syncPricesOne sup st raw) ?_
    cases hm : mapPriceData sup raw with
    | error e => simpa only [syncPricesOne, hm] using h
    | ok mapped =>
      simp only [syncPricesOne, hm]
      exact applyList_activeLe sup mapped st h

theorem syncPricesLoop_keeps_inactive (sup : Supplier)
    (raws : List RawPrice) :
    ∀ (st : DB × Nat) (vid bound : Nat), bound ≤ st.fst.nextPriceId →
      (∀ r ∈ st.fst.prices, r.variantId = vid → r.id < bound →
        r.isActive = false) →
      ∀ r ∈ (raws.foldl (syncPricesOne sup) st).fst.prices,
        r.variantId = vid → r.id < bound → r.isActive = false := by
  induction raws with
  | nil => intro st vid bound _ hall; exact hall
  | cons raw rest ih =>
    intro st vid bound hb hall
    have hb2 : bound ≤ (syncPricesOne sup st raw).fst.nextPriceId :=
      le_trans hb (syncPricesOne_tables sup st raw).2.2
    refine ih (syncPricesOne sup st raw) vid bound hb2 ?_
    cases hm : mapPriceData sup raw with
    | error e => simpa only [syncPricesOne, hm] using hall
    | ok mapped =>
      simp only [syncPricesOne, hm]
      exact applyList_keeps_inactive sup mapped st vid bound hb hall

theorem syncPricesLoop_blankets (sup : Supplier) (db0 : DB)
    (raws : List RawPrice) :
    ∀ (st : DB × Nat) (vid bound : Nat),
      st.fst.variants = db0.variants → st.fst.products = db0.products →
      bound ≤ st.fst.nextPriceId →
      vid ∈ priceTargets db0 sup raws →
      ∀ r ∈ (raws.foldl (syncPricesOne sup) st).fst.prices,
        r.variantId = vid → r.id < bound → r.isActive = false := by
  induction raws with
  | nil => intro st vid bound _ _ _ hmem; simp [priceTargets] at hmem
  | cons raw rest ih =>
    intro st vid bound h1 h2 hb hmem
    have htab := syncPricesOne_tables sup st raw
    have h1s : (syncPricesOne sup st raw).fst.variants = db0.variants :=
      htab.1.trans h1
    have h2s : (syncPricesOne sup st raw).fst.products = db0.products :=
      htab.2.1.trans h2
    have hbs : bound ≤ (syncPricesOne sup st raw).fst.nextPriceId :=
      le_trans hb htab.2.2
    cases hm : mapPriceData sup raw with
    | error e =>
      have hpt : priceTargets db0 sup (raw :: rest) =
          priceTargets db0 sup rest := by
        simp [priceTargets, List.flatMap_cons, hm]
      rw [hpt] at hmem
      exact ih (syncPricesOne sup st raw) vid bound h1s h2s hbs hmem
    | ok mapped =>
      have hpt : priceTargets db0 sup (raw :: rest) =
          tierTargets db0 sup mapped ++ priceTargets db0 sup rest := by
        simp [priceTargets, List.flatMap_cons, hm]
      rw [hpt] at hmem
      rcases List.mem_append.mp hmem with hmem | hmem
      · have hblank :
            ∀ r ∈ (syncPricesOne sup st raw).fst.prices,
              r.variantId = vid → r.id < bound → r.isActive = false := by
          simp only [syncPricesOne, hm]
          exact applyList_blankets sup db0 mapped st vid bound h1 h2 hb hmem
        exact syncPricesLoop_keeps_inactive sup rest
          (syncPricesOne sup st raw) vid bound hbs hblank
      · exact ih (syncPricesOne sup st raw) vid bound h1s h2s hbs hmem

/-- C4 (amended): `_sync_prices` deactivates all existing tiers of a
variant before inserting *each* incoming tier, not once per tier set.
Consequently (a) the at-most-one-active-tier-per-variant invariant is
preserved, and (b) every price row from before the run whose variant
received at least one incoming tier ends up inactive — including the
earlier tiers of the incoming set itself, so after a multi-tier set only
the last inserted tier is active (see the counterexample). -/
theorem c4_price_deactivation_amended (sup : Supplier) (db : DB)
    (raws : List RawPrice)
    (hinv : ∀ vid, activePriceCount db.prices vid ≤ 1) :
    (∀ vid, activePriceCount (syncPrices sup db raws).fst.prices vid ≤ 1)
    ∧ (∀ r ∈ (syncPrices sup db raws).fst.prices,
        r.id < db.nextPriceId → r.variantId ∈ priceTargets db sup raws →
        r.isActive = false) := by
  constructor
  · exact syncPricesLoop_activeLe sup raws (db, 0) hinv
  · intro r hr hid hmem
    exact syncPricesLoop_blankets sup db raws (db, 0) r.variantId
      db.nextPriceId rfl rfl (le_refl _) hmem r hr rfl hid

def c4Sup : Supplier :=
  { id := 4, code := "MID", name := "Midocean", supplierType := "MIDOCEAN",
    isActive := true }

def c4DB : DB :=
  { products := [{ id := 1, supplierId := 4, supplierRef := "M1",
                   sku := "MID_M1" }],
    variants := [{ id := 10, productId := 1, supplierVariantRef := "S",
                   sku := "S", color := "", colorCode := "", size := "",
                   gtin := "", image := "" }],
    stocks := [], prices := [], syncErrors := [],
    nextVariantId := 11, nextPriceId := 0 }

/-- A Midocean price record carrying a two-tier set (base price plus one
scale entry) for SKU `"S"`. -/
def c4Raw : RawPrice :=
  .midocean { sku := some "S", price := some 10,
              scale := some [{ price := some 9,
                               minimumQuantity := some 50 }],
              validUntil := none }

/-- C4 counterexample: the claim says the new tier set is inserted as
active (all of it).  Applying the two-tier set to a variant with no prior
tiers leaves the first tier of the *new* set inactive: each insertion
deactivates everything already present, including the tier inserted just
before. -/
theorem c4_tier_set_counterexample :
    (syncPrices c4Sup c4DB [c4Raw]).fst.prices.map
        (fun r => (r.minQuantity, r.isActive)) =
      [(1, false), (50, true)] := by
  decide

/-- The C4-witness store: variant 10 already has one active tier
(id 0). -/
def c4DBw : DB :=
  { c4DB with
    prices := [{ id := 0, variantId := 10, price := 8, currency := "EUR",
                 minQuantity := 1, maxQuantity := none, validUntil := none,
                 isActive := true }],
    nextPriceId := 1 }

/-- The pre-existing tier as it stands after the run: deactivated. -/
def c4OldRow : PriceRow :=
  { id := 0, variantId := 10, price := 8, currency := "EUR",
    minQuantity := 1, maxQuantity := none, validUntil := none,
    isActive := false }

/-- C4 amended-claim witness: after applying the incoming two-tier set,
variant 10 has at most one active tier and its pre-existing tier (id 0)
is inactive. -/
theorem c4_price_deactivation_amended_witness :
    activePriceCount (syncPrices c4Sup c4DBw [c4Raw]).fst.prices 10 ≤ 1
    ∧ c4OldRow ∈ (syncPrices c4Sup c4DBw [c4Raw]).fst.prices
    ∧ c4OldRow.isActive = false := by
  have hinv : ∀ vid, activePriceCount c4DBw.prices vid ≤ 1 := by
    intro vid
    exact le_trans (List.length_filter_le _ _) (by decide)
  refine ⟨(c4_price_deactivation_amended c4Sup c4DBw [c4Raw] hinv).1 10,
          by decide, ?_⟩
  exact (c4_price_deactivation_amended c4Sup c4DBw [c4Raw] hinv).2 c4OldRow
    (by decide) (by decide) (by decide)

/-! ## C5: variant SKU synthesis and collision handling -/

/-- A string whose character data is a cons is not the empty string. -/
theorem string_ne_empty_of_data {s : String} {c : Char} {l : List Char}
    (h : s.data = c :: l) : s ≠ "" := by
  intro heq
  rw [heq] at h
  exact List.noConfusion h

/-- Appending on the right keeps a non-empty string non-empty. -/
theorem append_ne_empty_left (s t : String) (h : s ≠ "") : s ++ t ≠ "" := by
  intro heq
  apply h
  have hd : s.data ++ t.data = [] := congrArg String.data heq
  have hs : s.data = [] := (List.append_eq_nil.mp hd).1
  cases s with
  | mk data =>
    simp only at hs
    subst hs
    rfl

/-- A string append whose left side starts with `c` starts with `c`. -/
theorem append_data_head (s t : String) (c : Char) (l : List Char)
    (h : s.data = c :: l) : ∃ l2, (s ++ t).data = c :: l2 :=
  ⟨l ++ t.data, by
    have : (s ++ t).data = s.data ++ t.data := rfl
    rw [this, h]
    rfl⟩

/-- A replacement pass whose pattern does not start with `c` preserves a
leading `c`. -/
theorem pyReplace_head (s pat rep : String) (c : Char) (l : List Char)
    (hs : s.data = c :: l)
    (hpat : ∀ p ps, pat.data = p :: ps → p ≠ c) :
    ∃ l2, (pyReplace s pat rep).data = c :: l2 := by
  unfold pyReplace replaceList
  rw [show s.toList = s.data from rfl, hs]
  simp only [List.length_cons]
  rw [show replaceListAux pat.toList rep.toList (l.length + 1) (c :: l) =
      if pat.toList ≠ [] ∧ pat.toList.isPrefixOf (c :: l) then
        rep.toList ++ replaceListAux pat.toList rep.toList l.length
          ((c :: l).drop pat.toList.length)
      else c :: replaceListAux pat.toList rep.toList l.length l from rfl]
  have hcond : ¬ (pat.toList ≠ [] ∧ pat.toList.isPrefixOf (c :: l)) := by
    rintro ⟨hne, hpre⟩
    cases hp : pat.toList with
    | nil => exact hne hp
    | cons p ps =>
      rw [hp] at hpre
      simp only [List.isPrefixOf] at hpre
      have hpc : p = c := by
        by_contra hne2
        simp [hne2] at hpre
      exact hpat p ps hp hpc
  rw [if_neg hcond]
  exact ⟨_, rfl⟩

/-- The synthesized `MAK_…` SKU starts with `M` after all three cleanup
replacements. -/
theorem synthesized_sku_head (product : ProductRow) (vd : VariantData) :
    ∃ l, (pyReplace (pyReplace (pyReplace
        ("MAK_" ++ product.supplierRef ++ "_" ++ vd.color ++ "_" ++ vd.size)
        "/" "") " " "_") "__" "_").data = 'M' :: l := by
  have h0 : ("MAK_" : String).data = 'M' :: ['A', 'K', '_'] := rfl
  obtain ⟨l1, h1⟩ := append_data_head "MAK_" product.supplierRef 'M' _ h0
  obtain ⟨l2, h2⟩ := append_data_head _ "_" 'M' _ h1
  obtain ⟨l3, h3⟩ := append_data_head _ vd.color 'M' _ h2
  obtain ⟨l4, h4⟩ := append_data_head _ "_" 'M' _ h3
  obtain ⟨l5, h5⟩ := append_data_head _ vd.size 'M' _ h4
  obtain ⟨l6, h6⟩ := pyReplace_head _ "/" "" 'M' _ h5
    (by intro p ps hp hc; cases hp; exact absurd hc (by decide))
  obtain ⟨l7, h7⟩ := pyReplace_head _ " " "_" 'M' _ h6
    (by intro p ps hp hc; cases hp; exact absurd hc (by decide))
  obtain ⟨l8, h8⟩ := pyReplace_head _ "__" "_" 'M' _ h7
    (by intro p ps hp hc; cases hp; exact absurd hc (by decide))
  exact ⟨l8, h8⟩

/-- The SKU computed by `_sync_product_variants` is never empty: a
non-blank incoming SKU is kept, a blank one is synthesized with the
`MAK_` prefix. -/
theorem computeVariantSku_ne_empty (product : ProductRow)
    (vd : VariantData) : computeVariantSku product vd ≠ "" := by
  unfold computeVariantSku
  by_cases h : pyStrip vd.sku = ""
  · rw [if_pos h]
    obtain ⟨l, hl⟩ := synthesized_sku_head product vd
    exact string_ne_empty_of_data hl
  · rw [if_neg h]
    exact h

/-- Well-formedness of the variant table: duplicate-free ids below the id
counter, and globally unique SKUs (the `unique=True` column). -/
def VariantsWF (db : DB) : Prop :=
  (db.variants.map VariantRow.id).Nodup
  ∧ (∀ v ∈ db.variants, v.id < db.nextVariantId)
  ∧ (∀ v1 ∈ db.variants, ∀ v2 ∈ db.variants, v1.id ≠ v2.id →
      v1.sku ≠ v2.sku)

/-- Every row a successful variant upsert leaves behind is either an old
row or carries exactly the written SKU. -/
theorem upsertVariant_mem (db : DB) (product : ProductRow)
    (ref sku : String) (vd : VariantData) (db2 : DB) (c : Bool)
    (h : upsertVariant db product ref sku vd = .ok (db2, c)) :
    ∀ v ∈ db2.variants, v ∈ db.variants ∨ v.sku = sku := by
  cases hf : db.variants.find?
      (fun v => v.productId = product.id ∧ v.supplierVariantRef = ref) with
  | some v0 =>
    simp only [upsertVariant, hf] at h
    by_cases hg : db.variants.any (fun v => v.sku = sku ∧ v.id ≠ v0.id) = true
    · rw [if_pos hg] at h; cases h
    · rw [if_neg hg] at h
      cases h
      intro v hv
      obtain ⟨v1, hv1, hveq⟩ := List.mem_map.mp hv
      by_cases hid : v1.id = v0.id
      · right
        rw [← hveq]
        simp [hid]
      · left
        rw [← hveq]
        simp only [if_neg hid]
        exact hv1
  | none =>
    simp only [upsertVariant, hf] at h
    by_cases hg : db.variants.any (fun v => v.sku = sku) = true
    · rw [if_pos hg] at h; cases h
    · rw [if_neg hg] at h
      cases h
      intro v hv
      simp only [List.mem_append, List.mem_singleton] at hv
      rcases hv with hv | hv
      · exact Or.inl hv
      · subst hv
        exact Or.inr rfl

/-- A successful variant upsert preserves table well-formedness: ids stay
duplicate-free and below the counter, and SKU uniqueness is maintained by
the pre-write checks (the model of the `unique=True` constraint). -/
theorem upsertVariant_wf (db : DB) (product : ProductRow)
    (ref sku : String) (vd : VariantData) (db2 : DB) (c : Bool)
    (h : upsertVariant db product ref sku vd = .ok (db2, c))
    (hwf : VariantsWF db) : VariantsWF db2 := by
  obtain ⟨hnd, hbound, hsku⟩ := hwf
  cases hf : db.variants.find?
      (fun v => v.productId = product.id ∧ v.supplierVariantRef = ref) with
  | some v0 =>
    simp only [upsertVariant, hf] at h
    by_cases hg : db.variants.any (fun v => v.sku = sku ∧ v.id ≠ v0.id) = true
    · rw [if_pos hg] at h; cases h
    · rw [if_neg hg] at h
      cases h
      have hg2 : ∀ v ∈ db.variants, ¬ (v.sku = sku ∧ v.id ≠ v0.id) := by
        intro v hv
        simp only [List.any_eq_true, not_exists] at hg
        push_neg at hg
        have := hg v hv
        simpa using this
      have hidmap : ∀ v ∈ db.variants,
          (if v.id = v0.id then
            { v0 with sku := sku, color := vd.color, colorCode := vd.colorCode,
                      size := vd.size, gtin := vd.gtin, image := vd.image }
          else v).id = v.id := by
        intro v _
        by_cases hid : v.id = v0.id
        · simp [hid]
        · simp [hid]
      refine ⟨?_, ?_, ?_⟩
      · have : (db.variants.map (fun v =>
            if v.id = v0.id then
              { v0 with sku := sku, color := vd.color, colorCode := vd.colorCode,
                        size := vd.size, gtin := vd.gtin, image := vd.image }
            else v)).map VariantRow.id = db.variants.map VariantRow.id := by
          rw [List.map_map]
          exact List.map_congr_left (fun v hv => hidmap v hv)
        simpa [this] using hnd
      · intro v hv
        obtain ⟨v1, hv1, hveq⟩ := List.mem_map.mp hv
        have : v.id = v1.id := by rw [← hveq]; exact hidmap v1 hv1
        rw [this]
        exact hbound v1 hv1
      · intro v1 hv1 v2 hv2 hid
        obtain ⟨u1, hu1, hueq1⟩ := List.mem_map.mp hv1
        obtain ⟨u2, hu2, hueq2⟩ := List.mem_map.mp hv2
        have hid1 : v1.id = u1.id := by rw [← hueq1]; exact hidmap u1 hu1
        have hid2 : v2.id = u2.id := by rw [← hueq2]; exact hidmap u2 hu2
        by_cases hc1 : u1.id = v0.id <;> by_cases hc2 : u2.id = v0.id
        · exact absurd (hid1.trans (hc1.trans (hc2.symm.trans hid2.symm)))
            hid
        · have hv1sku : v1.sku = sku := by rw [← hueq1]; simp [hc1]
          have hv2eq : v2 = u2 := by rw [← hueq2]; simp [hc2]
          have : ¬ (u2.sku = sku ∧ u2.id ≠ v0.id) := hg2 u2 hu2
          rw [hv1sku, hv2eq]
          intro hcon
          exact this ⟨hcon.symm, hc2⟩
        · have hv2sku : v2.sku = sku := by rw [← hueq2]; simp [hc2]
          have hv1eq : v1 = u1 := by rw [← hueq1]; simp [hc1]
          have : ¬ (u1.sku = sku ∧ u1.id ≠ v0.id) := hg2 u1 hu1
          rw [hv2sku, hv1eq]
          intro hcon
          exact this ⟨hcon, hc1⟩
        · have hv1eq : v1 = u1 := by rw [← hueq1]; simp [hc1]
          have hv2eq : v2 = u2 := by rw [← hueq2]; simp [hc2]
          rw [hv1eq, hv2eq]
          refine hsku u1 hu1 u2 hu2 ?_
          rw [← hid1, ← hid2]
          exact hid
  | none =>
    simp only [upsertVariant, hf] at h
    by_cases hg : db.variants.any (fun v => v.sku = sku) = true
    · rw [if_pos hg] at h; cases h
    · rw [if_neg hg] at h
      cases h
      have hg2 : ∀ v ∈ db.variants, v.sku ≠ sku := by
        intro v hv
        simp only [List.any_eq_true, not_exists] at hg
        push_neg at hg
        have := hg v hv
        simpa using this
      refine ⟨?_, ?_, ?_⟩
      · simp only [List.map_append, List.map_cons, List.map_nil]
        rw [List.nodup_append]
        refine ⟨hnd, List.nodup_singleton _, ?_⟩
        intro a ha hb
        simp only [List.mem_singleton] at hb
        subst hb
        obtain ⟨v, hv, hveq⟩ := List.mem_map.mp ha
        have := hbound v hv
        simp only at this
        omega
      · intro v hv
        simp only [List.mem_append, List.mem_singleton] at hv
        rcases hv with hv | hv
        · have := hbound v hv
          simp only
          omega
        · subst hv
          simp
      · intro v1 hv1 v2 hv2 hid
        simp only [List.mem_append, List.mem_singleton] at hv1 hv2
        rcases hv1 with hv1 | hv1 <;> rcases hv2 with hv2 | hv2
        · exact hsku v1 hv1 v2 hv2 hid
        · subst hv2
          simp only
          exact hg2 v1 hv1
        · subst hv1
          simp only
          intro hcon
          exact hg2 v2 hv2 hcon.symm
        · subst hv1; subst hv2
          exact absurd rfl hid


/-- Product 1 of the C5 stores (`supplier_ref` `r1`). -/
def c5Product : ProductRow :=
  { id := 1, supplierId := 1, supplierRef := "r1", sku := "PA" }

/-- Incoming variant data carrying SKU `X` for the C5 scenarios. -/
def c5Vd : VariantData :=
  { sku := "X", supplierVariantRef := "rv", color := "red",
    colorCode := "", size := "M", gtin := "", image := "" }

/-- Double-collision store: SKU `X` is held by a variant of product 2 and
SKU `X_1` by a variant of product 3. -/
def c5DB : DB :=
  { products := [c5Product,
      { id := 2, supplierId := 1, supplierRef := "r2", sku := "PB" },
      { id := 3, supplierId := 1, supplierRef := "r3", sku := "PC" }],
    variants := [
      { id := 20, productId := 2, supplierVariantRef := "rb", sku := "X",
        color := "", colorCode := "", size := "", gtin := "", image := "" },
      { id := 21, productId := 3, supplierVariantRef := "rc", sku := "X_1",
        color := "", colorCode := "", size := "", gtin := "", image := "" }],
    stocks := [], prices := [], syncErrors := [],
    nextVariantId := 22, nextPriceId := 1 }

/-- Single-collision store: only the `X` variant of product 2, so the
once-appended suffix `_1` already resolves the clash. -/
def c5WitDB : DB :=
  { products := [c5Product,
      { id := 2, supplierId := 1, supplierRef := "r2", sku := "PB" }],
    variants := [
      { id := 20, productId := 2, supplierVariantRef := "rb", sku := "X",
        color := "", colorCode := "", size := "", gtin := "", image := "" }],
    stocks := [], prices := [], syncErrors := [],
    nextVariantId := 21, nextPriceId := 1 }


/-- One pass of the variant loop only adds rows whose SKU is the computed
SKU or the computed SKU with the one-shot `_<product.id>` suffix; every
other row was already present. -/
theorem syncVariantOne_provenance (product : ProductRow) (st : DB × Nat)
    (vd : VariantData) :
    ∀ v ∈ (syncVariantOne product st vd).1.variants,
      v ∈ st.1.variants ∨ v.sku = computeVariantSku product vd ∨
        v.sku = computeVariantSku product vd ++ "_" ++ toString product.id := by
  obtain ⟨db, n⟩ := st
  intro v hv
  by_cases hc : (db.variants.any (fun w =>
      w.sku = computeVariantSku product vd ∧ w.productId ≠ product.id)) = true
  · simp only [syncVariantOne, hc, if_true] at hv
    cases hu : upsertVariant db product (computeVariantRef product vd)
        (computeVariantSku product vd ++ "_" ++ toString product.id) vd with
    | ok p =>
      obtain ⟨db2, c⟩ := p
      rw [hu] at hv
      simp only at hv
      rcases upsertVariant_mem db product (computeVariantRef product vd)
          (computeVariantSku product vd ++ "_" ++ toString product.id) vd
          db2 c hu v hv with h | h
      · exact Or.inl h
      · exact Or.inr (Or.inr h)
    | error e =>
      rw [hu] at hv
      simp only at hv
      exact Or.inl hv
  · simp only [syncVariantOne, hc, Bool.false_eq_true, if_false] at hv
    cases hu : upsertVariant db product (computeVariantRef product vd)
        (computeVariantSku product vd) vd with
    | ok p =>
      obtain ⟨db2, c⟩ := p
      rw [hu] at hv
      simp only at hv
      rcases upsertVariant_mem db product (computeVariantRef product vd)
          (computeVariantSku product vd) vd db2 c hu v hv with h | h
      · exact Or.inl h
      · exact Or.inr (Or.inl h)
    | error e =>
      rw [hu] at hv
      simp only at hv
      exact Or.inl hv

/-- Provenance for the whole `_sync_product_variants` fold. -/
theorem syncProductVariants_provenance (product : ProductRow)
    (vds : List VariantData) :
    ∀ st : DB × Nat,
      ∀ v ∈ (vds.foldl (syncVariantOne product) st).1.variants,
        v ∈ st.1.variants ∨ ∃ vd ∈ vds,
          v.sku = computeVariantSku product vd ∨
          v.sku = computeVariantSku product vd ++ "_" ++
            toString product.id := by
  induction vds with
  | nil =>
    intro st v hv
    exact Or.inl hv
  | cons vd rest ih =>
    intro st v hv
    rw [List.foldl_cons] at hv
    rcases ih (syncVariantOne product st vd) v hv with h | ⟨vd1, hvd1, h1⟩
    · rcases syncVariantOne_provenance product st vd v h with h2 | h2
      · exact Or.inl h2
      · exact Or.inr ⟨vd, List.mem_cons_self vd rest, h2⟩
    · exact Or.inr ⟨vd1, List.mem_cons_of_mem vd hvd1, h1⟩

/-- C5.  COUNTEREXAMPLE to "append a disambiguating suffix ... and retry
until the stored SKU is unique": the suffix is appended exactly once, and
a second collision aborts that variant.  Store: product 1 (`supplier_ref`
`r1`), a variant of product 2 holding SKU `X` and a variant of product 3
holding SKU `X_1`.  Incoming variant data for product 1 carries SKU `X`:
the cross-product collision turns it into `X_1`, which still belongs to
another product, so `update_or_create` raises `IntegrityError`; the loop
records a `VALIDATION_ERROR` and persists nothing — product 1 ends the
run with no variant at all instead of a retried unique SKU such as
`X_1_1`. -/
theorem c5_sku_retry_counterexample :
    (syncProductVariants c5DB c5Product [c5Vd]).1.variants =
      c5DB.variants ∧
    ((syncProductVariants c5DB c5Product [c5Vd]).1.syncErrors.map
      SyncErrorRow.errorType) = ["VALIDATION_ERROR"] ∧
    (¬ ∃ v ∈ (syncProductVariants c5DB c5Product [c5Vd]).1.variants,
      v.productId = c5Product.id) := by
  refine ⟨rfl, rfl, ?_⟩
  decide

/-- C5 (amended).  After the variant upsert step every persisted variant
SKU is non-empty — an empty incoming SKU is synthesized from the product
reference, color and size before the uniqueness check — and when the
computed SKU already belongs to a variant of a different product, a
disambiguating suffix derived from the owning product's identity is
appended exactly once (not retried): every stored row is either a
pre-existing row or carries the computed SKU or the once-suffixed SKU,
and if the suffixed SKU still collides, the write fails and is recorded
as a `VALIDATION_ERROR` instead of being retried. -/
theorem c5_sku_amended (db : DB) (product : ProductRow)
    (vds : List VariantData) (db2 : DB) (n : Nat)
    (hne : ∀ v ∈ db.variants, v.sku ≠ "")
    (h : syncProductVariants db product vds = (db2, n)) :
    (∀ v ∈ db2.variants, v.sku ≠ "") ∧
    (∀ v ∈ db2.variants, v ∈ db.variants ∨ ∃ vd ∈ vds,
      v.sku = computeVariantSku product vd ∨
      v.sku = computeVariantSku product vd ++ "_" ++
        toString product.id) := by
  have hprov : ∀ v ∈ db2.variants, v ∈ db.variants ∨ ∃ vd ∈ vds,
      v.sku = computeVariantSku product vd ∨
      v.sku = computeVariantSku product vd ++ "_" ++
        toString product.id := by
    intro v hv
    have := syncProductVariants_provenance product vds (db, 0) v
    rw [show vds.foldl (syncVariantOne product) (db, 0) =
        syncProductVariants db product vds from rfl, h] at this
    exact this hv
  refine ⟨?_, hprov⟩
  intro v hv
  rcases hprov v hv with h1 | ⟨vd, _, h2 | h2⟩
  · exact hne v h1
  · rw [h2]
    exact computeVariantSku_ne_empty product vd
  · rw [h2]
    exact append_ne_empty_left _ _
      (append_ne_empty_left _ _ (computeVariantSku_ne_empty product vd))

/-- Witness for the amended C5 on the single-collision store: the incoming
SKU `X` collides with a variant of another product once; the persisted row
carries `X_1` and every stored SKU is non-empty. -/
theorem c5_sku_amended_witness :
    (∀ v ∈ c5WitDB.variants, v.sku ≠ "") ∧
    ((∀ v ∈ (syncProductVariants c5WitDB c5Product [c5Vd]).1.variants,
        v.sku ≠ "") ∧
     (∀ v ∈ (syncProductVariants c5WitDB c5Product [c5Vd]).1.variants,
        v ∈ c5WitDB.variants ∨ ∃ vd ∈ [c5Vd],
          v.sku = computeVariantSku c5Product vd ∨
          v.sku = computeVariantSku c5Product vd ++ "_" ++
            toString c5Product.id)) :=
  ⟨by decide,
   c5_sku_amended c5WitDB c5Product [c5Vd]
     (syncProductVariants c5WitDB c5Product [c5Vd]).1
     (syncProductVariants c5WitDB c5Product [c5Vd]).2
     (by decide) rfl⟩

end Alfera
